import Mathlib

/-!
# Verification of the ensnare sound-generation core

Shallow embedding of the envelope generator, oscillator, DCA and voice
allocation code of the ensnare repository, together with proofs of the
specification claims about them.

Conventions:
* `f64` values are modelled as exact numbers (`ℚ` for the envelope, DCA and
  voice subsystems; `ℝ` for the oscillator, whose frequency formula uses a
  real exponential).  Kahan-compensated sums (`KahanSum<f64>`) are exact plain
  sums in this model, since compensation only corrects floating-point
  rounding, which exact arithmetic does not have.
* `Seconds::infinite()` is modelled by a separate `timeTargetInfinite` flag
  next to the rational `timeTarget` field; the comparisons `infinite != 0.0`
  (true) and `time >= infinite` (false) are reproduced through that flag.
* Leaf newtypes (`Normal`, `BipolarNormal`, `FrequencyHz`, `Ratio`, `Seconds`,
  `u7`, `SampleRate`) come from a crate that is not vendored here; they are
  plain numbers with the unit conventions the spec states (`Normal` in
  [0, 1] and clamped on construction, `BipolarNormal` clamped to [-1, 1],
  `Ratio` multiplying a frequency, MIDI keys as naturals).
-/

namespace Ensnare

/-- Modelled from the spec: a `Normal` is a unit-interval value; constructing
one from a raw number clamps it into [0, 1] (`Normal::new`). -/
def normalNew (x : ℚ) : ℚ := max 0 (min 1 x)

/-! ## Envelope (src/core/src/generators.rs) -/

/-- The state tag of the envelope finite-state machine
(`enum State` in src/core/src/generators.rs). -/
inductive EnvState
  | idle
  | attack
  | decay
  | sustain
  | release
  | shutdown
deriving DecidableEq, Repr

/-- The `Envelope` ADSR generator (struct `Envelope` plus its
`EnvelopeEphemerals`, merged into one record).  `uncorrectedAmplitude` is the
Kahan-summed running amplitude, exact here. -/
structure Envelope where
  attack : ℚ
  decay : ℚ
  sustain : ℚ
  release : ℚ
  sampleRate : ℕ
  state : EnvState
  handledFirstTick : Bool
  ticks : ℕ
  time : ℚ
  uncorrectedAmplitude : ℚ
  correctedAmplitude : ℚ
  delta : ℚ
  amplitudeTarget : ℚ
  timeTarget : ℚ
  timeTargetInfinite : Bool
  amplitudeWasSet : Bool
  convexA : ℚ
  convexB : ℚ
  convexC : ℚ
  concaveA : ℚ
  concaveB : ℚ
  concaveC : ℚ
deriving DecidableEq, Repr

namespace Envelope

/-- Source `Envelope::MAX_SECONDS`: the 0–30 s range onto which unit-interval
durations are mapped. -/
def maxSeconds : ℚ := 30

/-- Source `Envelope::from_normal_to_seconds`. -/
def fromNormalToSeconds (normal : ℚ) : ℚ := normal * maxSeconds

/-- Source `Envelope::from_seconds_to_normal`. -/
def fromSecondsToNormal (seconds : ℚ) : ℚ := seconds / maxSeconds

/-- Source `Envelope::is_idle`. -/
def isIdle (e : Envelope) : Bool := e.state == .idle

/-- Source `Envelope::update_amplitude`: advance the raw linear accumulator by
delta. -/
def updateAmplitude (e : Envelope) : Envelope :=
  { e with uncorrectedAmplitude := e.uncorrectedAmplitude + e.delta }

/-- Source `Envelope::calculate_coefficients`: fit `y = a + b*x + c*x^2` through
three points.  The degenerate all-points-equal request returns the identity
transform.  The 3x3 inverse (`nalgebra::try_inverse`) is modelled by the
closed-form Lagrange solution guarded by the Vandermonde determinant; in
exact arithmetic the matrix is invertible iff the three abscissae are
pairwise distinct. -/
def calculateCoefficients (x0 y0 x1 y1 x2 y2 : ℚ) : ℚ × ℚ × ℚ :=
  if x0 = x1 ∧ x1 = x2 ∧ y0 = y1 ∧ y1 = y2 then
    (0, 1, 0)
  else
    let det := (x1 - x0) * (x2 - x0) * (x2 - x1)
    if det ≠ 0 then
      let d0 := (x0 - x1) * (x0 - x2)
      let d1 := (x1 - x0) * (x1 - x2)
      let d2 := (x2 - x0) * (x2 - x1)
      let a := y0 * x1 * x2 / d0 + y1 * x0 * x2 / d1 + y2 * x0 * x1 / d2
      let b := -(y0 * (x1 + x2) / d0 + y1 * (x0 + x2) / d1 + y2 * (x0 + x1) / d2)
      let c := y0 / d0 + y1 / d1 + y2 / d2
      (a, b, c)
    else
      (0, 0, 0)

/-- Source `Envelope::set_target`: record the amplitude target, the time target and
the per-tick linear delta for a segment.  `calculateForFullAmplitudeRange`
replaces the actual amplitude distance by the full range (-1.0);
`fastReaction` adds one extra frame to the divisor and applies the first
delta immediately.  `Normal::maximum()` is 1 and `Normal::minimum()` is 0. -/
def setTarget (e : Envelope) (targetAmplitude duration : ℚ)
    (calculateForFullAmplitudeRange fastReaction : Bool) : Envelope :=
  let e := { e with amplitudeTarget := targetAmplitude }
  if duration ≠ 1 then
    let fastReactionExtraFrame : ℚ := if fastReaction then 1 else 0
    let range : ℚ :=
      if calculateForFullAmplitudeRange then -1
      else e.amplitudeTarget - e.uncorrectedAmplitude
    let durationSeconds := fromNormalToSeconds duration
    let e := { e with timeTarget := e.time + durationSeconds,
                      timeTargetInfinite := false }
    let e := { e with delta :=
      if duration ≠ 0 then
        range / (durationSeconds * (e.sampleRate : ℚ) + fastReactionExtraFrame)
      else 0 }
    if fastReaction then
      { e with uncorrectedAmplitude := e.uncorrectedAmplitude + e.delta }
    else e
  else
    { e with timeTarget := 0, timeTargetInfinite := true, delta := 0 }

/-- Source `Envelope::set_explicit_amplitude`. -/
def setExplicitAmplitude (e : Envelope) (amplitude : ℚ) : Envelope :=
  { e with uncorrectedAmplitude := amplitude, amplitudeWasSet := true }

/-- Source `Envelope::set_state(State::Idle)`. -/
def setStateIdle (e : Envelope) : Envelope :=
  { e with state := .idle, uncorrectedAmplitude := 0, delta := 0 }

/-- Source `Envelope::set_state(State::Sustain)`. -/
def setStateSustain (e : Envelope) : Envelope :=
  setTarget { e with state := .sustain } e.sustain 1 false false

/-- Source `Envelope::set_state(State::Decay)`: with zero decay, snap to the sustain
level and fall through to Sustain; otherwise target the sustain level over
the full amplitude range and fit the concave curve. -/
def setStateDecay (e : Envelope) : Envelope :=
  if e.decay = 0 then
    setStateSustain (setExplicitAmplitude e e.sustain)
  else
    let e := { e with state := .decay }
    let targetAmplitude := e.sustain
    let e := setTarget e e.sustain e.decay true false
    let currentAmplitude := e.uncorrectedAmplitude
    let abc := calculateCoefficients currentAmplitude currentAmplitude
      ((currentAmplitude - targetAmplitude) / 2 + targetAmplitude)
      ((currentAmplitude - targetAmplitude) / 3 + targetAmplitude)
      targetAmplitude targetAmplitude
    { e with concaveA := abc.1, concaveB := abc.2.1, concaveC := abc.2.2 }

/-- Source `Envelope::set_state(State::Attack)`: with zero attack, jump to Decay at
amplitude 1; otherwise target 1.0 over the current amplitude distance and fit
the convex curve (source midpoint divisor 1.5 is 3/2). -/
def setStateAttack (e : Envelope) : Envelope :=
  if e.attack = 0 then
    setStateDecay (setExplicitAmplitude e 1)
  else
    let e := { e with state := .attack }
    let targetAmplitude : ℚ := 1
    let e := setTarget e 1 e.attack false false
    let currentAmplitude := e.uncorrectedAmplitude
    let abc := calculateCoefficients currentAmplitude currentAmplitude
      ((targetAmplitude - currentAmplitude) / 2 + currentAmplitude)
      ((targetAmplitude - currentAmplitude) / (3 / 2) + currentAmplitude)
      targetAmplitude targetAmplitude
    { e with convexA := abc.1, convexB := abc.2.1, convexC := abc.2.2 }

/-- Source `Envelope::set_state(State::Release)`: with zero release, set amplitude
to `Normal::maximum()` and fall through to Idle; otherwise target 0 over the
full amplitude range and fit the concave curve. -/
def setStateRelease (e : Envelope) : Envelope :=
  if e.release = 0 then
    setStateIdle (setExplicitAmplitude e 1)
  else
    let e := { e with state := .release }
    let targetAmplitude : ℚ := 0
    let e := setTarget e 0 e.release true false
    let currentAmplitude := e.uncorrectedAmplitude
    let abc := calculateCoefficients currentAmplitude currentAmplitude
      ((currentAmplitude - targetAmplitude) / 2 + targetAmplitude)
      ((currentAmplitude - targetAmplitude) / 3 + targetAmplitude)
      targetAmplitude targetAmplitude
    { e with concaveA := abc.1, concaveB := abc.2.1, concaveC := abc.2.2 }

/-- Source `Envelope::set_state(State::Shutdown)`: a fixed 1 ms forced linear ramp
to 0 with fast reaction. -/
def setStateShutdown (e : Envelope) : Envelope :=
  setTarget { e with state := .shutdown } 0
    (fromSecondsToNormal (1 / 1000)) false true

/-- Source `Envelope::set_state`, dispatching on the requested state. -/
def setState (e : Envelope) (s : EnvState) : Envelope :=
  match s with
  | .idle => e.setStateIdle
  | .attack => e.setStateAttack
  | .decay => e.setStateDecay
  | .sustain => e.setStateSustain
  | .release => e.setStateRelease
  | .shutdown => e.setStateShutdown

/-- Source `Envelope::trigger_attack`. -/
def triggerAttack (e : Envelope) : Envelope := e.setState .attack

/-- Source `Envelope::trigger_release`. -/
def triggerRelease (e : Envelope) : Envelope := e.setState .release

/-- Source `Envelope::trigger_shutdown`. -/
def triggerShutdown (e : Envelope) : Envelope := e.setState .shutdown

/-- The condition under which `Envelope::has_reached_target` reports that the
target is hit: zero delta, an elapsed nonzero finite time target, or the
remaining amplitude distance being below one delta step. -/
def hitTarget (e : Envelope) : Prop :=
  e.delta = 0 ∨
    (e.timeTargetInfinite = false ∧ e.timeTarget ≠ 0 ∧ e.timeTarget ≤ e.time) ∨
    |e.uncorrectedAmplitude - e.amplitudeTarget| < |e.delta|

instance (e : Envelope) : Decidable e.hitTarget := by
  unfold hitTarget; infer_instance

/-- Source `Envelope::has_reached_target`: report whether the target is hit and, if
so, snap the amplitude exactly to the target. -/
def hasReachedTarget (e : Envelope) : Bool × Envelope :=
  if e.hitTarget then (true, { e with uncorrectedAmplitude := e.amplitudeTarget })
  else (false, e)

/-- Source `Envelope::handle_state`: auto-advance to the next state once the current
awaiting segment reaches its target. -/
def handleState (e : Envelope) : Envelope :=
  let nextAwaiting : EnvState × Bool :=
    match e.state with
    | .idle => (.idle, false)
    | .attack => (.decay, true)
    | .decay => (.sustain, true)
    | .sustain => (.sustain, false)
    | .release => (.idle, true)
    | .shutdown => (.idle, true)
  if nextAwaiting.2 then
    let r := e.hasReachedTarget
    if r.1 then r.2.setState nextAwaiting.1 else r.2
  else e

/-- Source `Envelope::transform_linear_to_convex`. -/
def transformLinearToConvex (e : Envelope) (linearValue : ℚ) : ℚ :=
  e.convexC * linearValue ^ 2 + e.convexB * linearValue + e.convexA

/-- Source `Envelope::transform_linear_to_concave`. -/
def transformLinearToConcave (e : Envelope) (linearValue : ℚ) : ℚ :=
  e.concaveC * linearValue ^ 2 + e.concaveB * linearValue + e.concaveA

/-- One iteration of `Envelope::tick`: advance the raw accumulator, update
the clock, run the state machine, and report the curve-transformed value
(or the pre-update raw value when an explicit amplitude was just set). -/
def tick1 (e : Envelope) : Envelope :=
  let preUpdateAmplitude := e.uncorrectedAmplitude
  let e :=
    if e.handledFirstTick = false then { e with handledFirstTick := true }
    else updateAmplitude { e with ticks := e.ticks + 1 }
  let e := { e with time := (e.ticks : ℚ) / (e.sampleRate : ℚ) }
  let e := e.handleState
  let p : ℚ × Envelope :=
    if e.amplitudeWasSet then (preUpdateAmplitude, { e with amplitudeWasSet := false })
    else (e.uncorrectedAmplitude, e)
  let linearAmplitude := p.1
  let e := p.2
  { e with correctedAmplitude :=
      match e.state with
      | .attack => e.transformLinearToConvex linearAmplitude
      | .decay => e.transformLinearToConcave linearAmplitude
      | .release => e.transformLinearToConcave linearAmplitude
      | _ => linearAmplitude }

/-- Source `Envelope::tick(n)`: `n` iterations of the per-sample tick body. -/
def tickN (e : Envelope) : ℕ → Envelope
  | 0 => e
  | n + 1 => (e.tickN n).tick1

/-- Source `Envelope::value`: the reported (clamped `Normal`) amplitude. -/
def value (e : Envelope) : ℚ := normalNew e.correctedAmplitude

/-- A freshly constructed envelope (`Envelope::new_with` with default
ephemerals) at a given sample rate. -/
def newWith (attack decay sustain release : ℚ) (sampleRate : ℕ) : Envelope :=
  { attack := attack, decay := decay, sustain := sustain, release := release
    sampleRate := sampleRate, state := .idle, handledFirstTick := false
    ticks := 0, time := 0, uncorrectedAmplitude := 0, correctedAmplitude := 0
    delta := 0, amplitudeTarget := 0, timeTarget := 0
    timeTargetInfinite := false, amplitudeWasSet := false
    convexA := 0, convexB := 0, convexC := 0
    concaveA := 0, concaveB := 0, concaveC := 0 }

end Envelope

/-! ## DCA (src/core/src/modulators.rs) -/

/-- The digitally controlled amplifier: gain (a `Normal`) and pan
(a `BipolarNormal`). -/
structure Dca where
  gain : ℚ
  pan : ℚ
deriving DecidableEq, Repr

/-- Source `Dca::transform_audio_to_stereo`: apply gain, then the pan law
`left = 1 - 0.25*(pan+1)^2`, `right = 1 - (0.5*pan - 0.5)^2`. -/
def Dca.transformAudioToStereo (dca : Dca) (inputSample : ℚ) : ℚ × ℚ :=
  let inputSample : ℚ := inputSample * dca.gain
  let leftPan : ℚ := 1 - 1 / 4 * (dca.pan + 1) ^ 2
  let rightPan : ℚ := 1 - (1 / 2 * dca.pan - 1 / 2) ^ 2
  (leftPan * inputSample, rightPan * inputSample)

/-! ## WelshVoice (src/cores/src/instruments/welsh.rs)

Only the note-lifecycle part of the voice is relevant here: the amplitude
and filter envelopes, the two oscillator frequencies set by `note_on`, and
the steal-pending latch.  `FrequencyHz::from(MidiNote)` lives in the missing
types crate, so the MIDI-key-to-frequency table is abstracted as a
function parameter `keyToFreq` (spec §6: standard 12-TET, A4 = 440 Hz). -/

/-- The claim-relevant state of a `WelshVoice`. -/
structure WelshVoice where
  ampEnvelope : Envelope
  filterEnvelope : Envelope
  osc1Frequency : ℚ
  osc2Frequency : ℚ
  noteOnKey : ℕ
  noteOnVelocity : ℕ
  stealIsUnderway : Bool
deriving DecidableEq, Repr

namespace WelshVoice

/-- Source `WelshVoice::is_playing`: the amplitude envelope is not idle. -/
def isPlaying (v : WelshVoice) : Bool := !v.ampEnvelope.isIdle

/-- Source `WelshVoice::set_frequency_hz`: set both oscillators. -/
def setFrequencyHz (v : WelshVoice) (frequencyHz : ℚ) : WelshVoice :=
  { v with osc1Frequency := frequencyHz, osc2Frequency := frequencyHz }

/-- Source `WelshVoice::note_on`: if already sounding, latch the key/velocity,
mark the steal pending and shut the amplitude envelope down; otherwise
trigger the attacks and set the oscillator frequency from the key. -/
def noteOn (keyToFreq : ℕ → ℚ) (v : WelshVoice) (key velocity : ℕ) : WelshVoice :=
  if v.isPlaying then
    { v with stealIsUnderway := true, noteOnKey := key, noteOnVelocity := velocity,
             ampEnvelope := v.ampEnvelope.triggerShutdown }
  else
    let v := { v with ampEnvelope := v.ampEnvelope.triggerAttack,
                      filterEnvelope := v.filterEnvelope.triggerAttack }
    v.setFrequencyHz (keyToFreq key)

/-- Source `WelshVoice::tick_envelopes`: advance both envelopes (only while
playing); once the amplitude envelope has just gone idle with a steal
pending, clear the flag and replay `note_on` with the latched key and
velocity.  Returns the new voice and the (amp, filter) amplitudes. -/
def tickEnvelopes (keyToFreq : ℕ → ℚ) (v : WelshVoice) : WelshVoice × ℚ × ℚ :=
  if v.isPlaying then
    let v := { v with ampEnvelope := v.ampEnvelope.tick1,
                      filterEnvelope := v.filterEnvelope.tick1 }
    if v.isPlaying then
      (v, v.ampEnvelope.value, v.filterEnvelope.value)
    else if v.stealIsUnderway then
      let v := { v with stealIsUnderway := false }
      (noteOn keyToFreq v v.noteOnKey v.noteOnVelocity, 0, 0)
    else (v, 0, 0)
  else (v, 0, 0)

end WelshVoice

/-- A concrete amplitude envelope mid-note (Sustain at amplitude 1/2,
sample rate 1000). -/
def welshEnvC5 : Envelope :=
  { attack := 0, decay := 0, sustain := 1, release := 0
    sampleRate := 1000, state := .sustain, handledFirstTick := true
    ticks := 0, time := 0, uncorrectedAmplitude := 1 / 2, correctedAmplitude := 1 / 2
    delta := 0, amplitudeTarget := 1 / 2, timeTarget := 0
    timeTargetInfinite := true, amplitudeWasSet := false
    convexA := 0, convexB := 0, convexC := 0
    concaveA := 0, concaveB := 0, concaveC := 0 }

/-- A concrete sounding `WelshVoice` (its amplitude envelope is mid-note). -/
def welshVoiceC5 : WelshVoice :=
  { ampEnvelope := welshEnvC5, filterEnvelope := { welshEnvC5 with state := .idle }
    osc1Frequency := 440, osc2Frequency := 440
    noteOnKey := 0, noteOnVelocity := 0, stealIsUnderway := false }

/-! ## Voice stores (src/src/elements/voices.rs)

The stores are generic over the voice type `V`; the operations a store needs
from its voices (`PlaysNotes::is_playing`, `Ticks::tick`,
`Generates::value`) are bundled in `VoiceOps`.  `get_voice` returns a
mutable reference into the store's own `voices` vector, modelled as the
index of the returned slot together with the updated store. -/

/-- The voice-trait operations a store uses. -/
structure VoiceOps (V : Type) where
  isPlaying : V → Bool
  tick1 : V → V
  value : V → ℚ × ℚ

/-- Source `tick(n)` on a single voice: iterate the per-sample tick. -/
def VoiceOps.tickN {V : Type} (ops : VoiceOps V) (v : V) : ℕ → V
  | 0 => v
  | n + 1 => ops.tick1 (ops.tickN v n)

/-- First index of `key` in the `notes_playing` vector
(`iter().position(|note| *key == *note)`). -/
def findKeyIdx (notes : List ℕ) (key : ℕ) : Option ℕ :=
  match notes with
  | [] => none
  | k :: rest =>
    if key = k then some 0
    else (findKeyIdx rest key).map (· + 1)

/-- First index of a non-playing voice
(the `for (index, voice) in voices.iter().enumerate()` scan). -/
def findInactiveIdx {V : Type} (ops : VoiceOps V) (voices : List V) : Option ℕ :=
  match voices with
  | [] => none
  | v :: rest =>
    if ops.isPlaying v then (findInactiveIdx ops rest).map (· + 1)
    else some 0

/-- Shared layout of `VoiceStore` and `StealingVoiceStore`: the owned voices
and the per-slot recorded key (`notes_playing`, key 0 denoting a free
slot). -/
structure VoiceStore (V : Type) where
  sample : ℚ × ℚ
  voices : List V
  notesPlaying : List ℕ
deriving Repr

namespace VoiceStore

/-- Source `VoiceStore::get_voice` (capacity-limited-with-rejection): return the
slot already mapped to `key`; else record `key` in the first inactive slot
and return it; else fail with "out of voices". -/
def getVoice {V : Type} (ops : VoiceOps V) (s : VoiceStore V) (key : ℕ) :
    Except String ℕ × VoiceStore V :=
  match findKeyIdx s.notesPlaying key with
  | some index => (Except.ok index, s)
  | none =>
    match findInactiveIdx ops s.voices with
    | some index =>
      (Except.ok index, { s with notesPlaying := s.notesPlaying.set index key })
    | none => (Except.error "out of voices", s)

/-- Source `StealingVoiceStore::get_voice` (capacity-limited-with-stealing): as
above, but with no free slot it unconditionally reassigns slot 0. -/
def stealingGetVoice {V : Type} (ops : VoiceOps V) (s : VoiceStore V) (key : ℕ) :
    Except String ℕ × VoiceStore V :=
  match findKeyIdx s.notesPlaying key with
  | some index => (Except.ok index, s)
  | none =>
    match findInactiveIdx ops s.voices with
    | some index =>
      (Except.ok index, { s with notesPlaying := s.notesPlaying.set index key })
    | none =>
      (Except.ok 0, { s with notesPlaying := s.notesPlaying.set 0 key })

/-- The per-slot reset loop at the end of the stores' `tick`: every slot
whose voice is not playing gets its recorded key reset to 0. -/
def resetFreeNotes {V : Type} (ops : VoiceOps V) :
    List V → List ℕ → List ℕ
  | [], notes => notes
  | _ :: _, [] => []
  | v :: vs, k :: ks =>
    (if ops.isPlaying v then k else 0) :: resetFreeNotes ops vs ks

/-- Source `Ticks::tick(tick_count)` for both capacity-limited stores: tick every
voice, sum the stereo outputs, then reset the recorded key of every
non-playing slot to 0. -/
def tick {V : Type} (ops : VoiceOps V) (s : VoiceStore V) (tickCount : ℕ) :
    VoiceStore V :=
  let voices := s.voices.map (fun v => ops.tickN v tickCount)
  let sample := voices.foldl
    (fun acc v => (acc.1 + (ops.value v).1, acc.2 + (ops.value v).2)) (0, 0)
  { sample := sample, voices := voices
    notesPlaying := resetFreeNotes ops voices s.notesPlaying }

end VoiceStore

/-- The voice operations of the test voice used to exercise the stores:
`V = Bool`, where the boolean is the playing flag itself and ticking does
not change it. -/
def voiceOpsBool : VoiceOps Bool :=
  { isPlaying := fun b => b, tick1 := fun b => b, value := fun _ => (0, 0) }

/-! ## Oscillator (src/core/src/generators.rs)

Modelled over `ℝ` because the frequency formula uses `2.0f64.powf` and the
sine waveform uses `sin`.  The Kahan-summed `cycle_position` is an exact
real here. -/

/-- Source `enum Waveform`. -/
inductive Waveform
  | none
  | sine
  | square
  | pulseWidth (dutyCycle : ℝ)
  | triangle
  | sawtooth
  | noise
  | debugZero
  | debugMax
  | debugMin
  | triangleSine

/-- Source `f64::signum` on non-NaN input: -1 for negatives, +1 otherwise
(`(+0.0).signum()` is `1.0`). -/
noncomputable def rustSignum (x : ℝ) : ℝ := if x < 0 then -1 else 1

/-- Modelled from the spec: a `BipolarNormal` is clamped to [-1, 1] on
construction (`BipolarNormal::from`). -/
noncomputable def bipolarClamp (x : ℝ) : ℝ := max (-1) (min 1 x)

/-- Source `u32::MAX` as a real. -/
noncomputable def u32Max : ℝ := 2 ^ 32 - 1

/-- Source `Oscillator` together with its `OscillatorEphemerals`. -/
structure Oscillator where
  waveform : Waveform
  frequency : ℝ
  fixedFrequency : Option ℝ
  frequencyTune : ℝ
  frequencyModulation : ℝ
  linearFrequencyModulation : ℝ
  noiseX1 : ℕ
  noiseX2 : ℕ
  sampleRate : ℕ
  ticks : ℕ
  signal : ℝ
  cyclePosition : ℝ
  delta : ℝ
  deltaUpdated : Bool
  shouldSync : Bool
  isSyncPending : Bool
  resetHandled : Bool

namespace Oscillator

/-- Source `Oscillator::adjusted_frequency`: the fixed-frequency override (if any),
else base frequency times tuning ratio, multiplied by
`2^frequency_modulation + linear_frequency_modulation`. -/
noncomputable def adjustedFrequency (o : Oscillator) : ℝ :=
  let unmodulatedFrequency : ℝ :=
    match o.fixedFrequency with
    | some fixedFrequency => fixedFrequency
    | none => o.frequency * o.frequencyTune
  unmodulatedFrequency *
    ((2 : ℝ) ^ o.frequencyModulation + o.linearFrequencyModulation)

/-- Source `Oscillator::update_delta`: when a frequency-affecting parameter changed,
recompute the per-sample phase increment and re-anchor the compensated sum
(the re-anchoring is the identity in exact arithmetic). -/
noncomputable def updateDelta (o : Oscillator) : Oscillator :=
  if o.deltaUpdated = false then
    { o with delta := o.adjustedFrequency / (o.sampleRate : ℝ),
             deltaUpdated := true }
  else o

/-- The near-1.0 wrap tolerance `0.999999999999` used by
`calculate_cycle_position`. -/
noncomputable def wrapThreshold : ℝ := 999999999999 / 10 ^ 12

/-- Source `Oscillator::calculate_cycle_position`: consume a pending sync, advance
the accumulator by delta (except on the first post-reset tick), and wrap by
subtracting 1.0 once the position passes the near-1.0 tolerance, setting
`should_sync` for that tick.  Returns the wrapped position and the updated
oscillator. -/
noncomputable def calculateCyclePosition (o : Oscillator) : ℝ × Oscillator :=
  let o := o.updateDelta
  let o :=
    if o.isSyncPending then { o with isSyncPending := false, cyclePosition := 0 }
    else o
  let p : ℝ × Oscillator :=
    if o.resetHandled = false then (0, o)
    else
      let o := { o with cyclePosition := o.cyclePosition + o.delta }
      (o.cyclePosition, o)
  let nextCyclePositionUnrounded := p.1
  let o := p.2
  let o :=
    if o.resetHandled = false then { o with shouldSync := true }
    else if nextCyclePositionUnrounded > wrapThreshold then
      { o with cyclePosition := o.cyclePosition - 1, shouldSync := true }
    else { o with shouldSync := false }
  (o.cyclePosition, o)

/-- Source `Oscillator::amplitude_for_position`: the waveform functions (each
phase-shifted to start at amplitude 0), plus the stateful xorshift-style
noise generator.  Returns the amplitude and the updated noise state. -/
noncomputable def amplitudeForPosition (waveform : Waveform) (cyclePosition : ℝ)
    (x1 x2 : ℕ) : ℝ × ℕ × ℕ :=
  match waveform with
  | .none => (0, x1, x2)
  | .sine => (Real.sin (cyclePosition * 2 * Real.pi), x1, x2)
  | .square => (-rustSignum (cyclePosition - 1 / 2), x1, x2)
  | .pulseWidth dutyCycle => (-rustSignum (cyclePosition - dutyCycle), x1, x2)
  | .triangle =>
    (4 * |cyclePosition - (⌊1 / 2 + cyclePosition⌋ : ℤ)| - 1, x1, x2)
  | .sawtooth => (2 * (cyclePosition - (⌊1 / 2 + cyclePosition⌋ : ℤ)), x1, x2)
  | .noise =>
    let x1 := x1 ^^^ x2
    let tmp : ℝ := 2 * ((x2 : ℝ) - u32Max / 2) / u32Max
    let x2 := (x2 + x1) % 2 ^ 32
    (tmp, x1, x2)
  | .triangleSine =>
    (4 * |cyclePosition - (⌊3 / 4 + cyclePosition⌋ : ℤ) + 1 / 4| - 1, x1, x2)
  | .debugZero => (0, x1, x2)
  | .debugMax => (1, x1, x2)
  | .debugMin => (-1, x1, x2)

/-- One iteration of `Oscillator::tick`: on the first tick after
construction or a sample-rate change, reset the clock and recompute the
cycle position from scratch; otherwise advance the clock; then compute the
wrapped position and the output signal, and mark the reset handled. -/
noncomputable def tick1 (o : Oscillator) : Oscillator :=
  let o :=
    if o.resetHandled = false then
      let o := { o with ticks := 0 }
      let o := o.updateDelta
      { o with cyclePosition := Int.fract (o.delta * (o.ticks : ℝ)) }
    else { o with ticks := o.ticks + 1 }
  let p := o.calculateCyclePosition
  let o := p.2
  let q := amplitudeForPosition o.waveform p.1 o.noiseX1 o.noiseX2
  let o := { o with signal := bipolarClamp q.1, noiseX1 := q.2.1, noiseX2 := q.2.2 }
  { o with resetHandled := true }

/-- Source `Oscillator::tick(n)`: `n` iterations of the per-sample tick body. -/
noncomputable def tickN (o : Oscillator) : ℕ → Oscillator
  | 0 => o
  | n + 1 => (o.tickN n).tick1

/-- The per-sample phase increment a tick will effectively use: the cached
`delta` when it is up to date, else the value `update_delta` recomputes. -/
noncomputable def effectiveDelta (o : Oscillator) : ℝ :=
  if o.deltaUpdated then o.delta else o.adjustedFrequency / (o.sampleRate : ℝ)

end Oscillator

/-- The spec's effective-frequency formula, written from the spec sentence
"Effective frequency = (fixed-frequency override, else base×tuning-ratio) ×
2^(bipolar-FM) × (1+linear-FM)". -/
noncomputable def specEffectiveFrequency (o : Oscillator) : ℝ :=
  (match o.fixedFrequency with
   | some fixedFrequency => fixedFrequency
   | none => o.frequency * o.frequencyTune) *
    (2 : ℝ) ^ o.frequencyModulation * (1 + o.linearFrequencyModulation)

/-- The amended effective-frequency formula: the linear-FM input is added to
the `2^(bipolar-FM)` factor rather than multiplying the result, i.e.
effective frequency = (fixed-frequency override, else base×tuning-ratio) ×
(2^(bipolar-FM) + linear-FM). -/
noncomputable def specEffectiveFrequencyAmended (o : Oscillator) : ℝ :=
  (match o.fixedFrequency with
   | some fixedFrequency => fixedFrequency
   | none => o.frequency * o.frequencyTune) *
    ((2 : ℝ) ^ o.frequencyModulation + o.linearFrequencyModulation)

/-- A concrete oscillator with bipolar FM input 1 and linear FM input 1
(base frequency 1, tuning ratio 1, no fixed-frequency override). -/
noncomputable def oscillatorC1 : Oscillator :=
  { waveform := .sine, frequency := 1, fixedFrequency := none
    frequencyTune := 1, frequencyModulation := 1, linearFrequencyModulation := 1
    noiseX1 := 0x70f4f854, noiseX2 := 0xe1e9f0a7, sampleRate := 44100
    ticks := 0, signal := 0, cyclePosition := 0, delta := 0
    deltaUpdated := false, shouldSync := false, isSyncPending := false
    resetHandled := false }

/-- A concrete oscillator whose per-sample phase increment is just below
1.0 (as produced by one tick at sample rate 1 and frequency
0.9999999999995 Hz): the wrap tolerance fires although the position has not
reached 1.0, leaving the position negative. -/
noncomputable def oscillatorC2 : Oscillator :=
  { waveform := .none, frequency := 9999999999995 / 10 ^ 13, fixedFrequency := none
    frequencyTune := 1, frequencyModulation := 0, linearFrequencyModulation := 0
    noiseX1 := 0x70f4f854, noiseX2 := 0xe1e9f0a7, sampleRate := 1
    ticks := 0, signal := 0, cyclePosition := 0, delta := 9999999999995 / 10 ^ 13
    deltaUpdated := true, shouldSync := true, isSyncPending := false
    resetHandled := true }

/-- A concrete mid-run oscillator with phase increment 1/2 (frequency half
the sample rate). -/
noncomputable def oscillatorC2Steady : Oscillator :=
  { waveform := .none, frequency := 22050, fixedFrequency := none
    frequencyTune := 1, frequencyModulation := 0, linearFrequencyModulation := 0
    noiseX1 := 0x70f4f854, noiseX2 := 0xe1e9f0a7, sampleRate := 44100
    ticks := 5, signal := 0, cyclePosition := 0, delta := 1 / 2
    deltaUpdated := true, shouldSync := false, isSyncPending := false
    resetHandled := true }

/-! ## Segment-run lemmas for the envelope

A Decay or Release segment advances linearly by `delta` per tick until
`has_reached_target` fires, either because the remaining amplitude distance
drops below one delta step or because the time target elapses.  The lemmas
below characterise one tick of such a segment. -/

namespace Envelope

/-- One mid-segment tick of a Decay/Release segment: when neither the time
target nor the amplitude test fires, the tick only advances the clock and
the raw amplitude and reports the concave transform of the new value. -/
theorem tick1_continue_concave (E : Envelope)
    (hst : E.state = .decay ∨ E.state = .release)
    (hhand : E.handledFirstTick = true)
    (hset : E.amplitudeWasSet = false)
    (hd : E.delta ≠ 0)
    (htime : ¬ E.timeTarget ≤ ((E.ticks : ℚ) + 1) / (E.sampleRate : ℚ))
    (hamp : ¬ |E.uncorrectedAmplitude + E.delta - E.amplitudeTarget| < |E.delta|) :
    E.tick1 = { E with
      ticks := E.ticks + 1,
      time := ((E.ticks : ℚ) + 1) / (E.sampleRate : ℚ),
      uncorrectedAmplitude := E.uncorrectedAmplitude + E.delta,
      correctedAmplitude :=
        E.transformLinearToConcave (E.uncorrectedAmplitude + E.delta) } := by
  rcases hst with hst | hst <;>
    simp [Envelope.tick1, Envelope.handleState, Envelope.hasReachedTarget,
      Envelope.hitTarget, Envelope.updateAmplitude, Envelope.transformLinearToConcave,
      hhand, hset, hd, htime, hamp, hst]

/-- The final tick of a Decay segment: when the reach test fires, the
amplitude snaps exactly to the target and the state auto-advances to
Sustain (whose `set_target` with maximum duration zeroes the delta and
makes the time target infinite). -/
theorem tick1_finish_decay (E : Envelope)
    (hst : E.state = .decay)
    (hhand : E.handledFirstTick = true)
    (hset : E.amplitudeWasSet = false)
    (hhit : E.delta = 0 ∨
      (E.timeTargetInfinite = false ∧ E.timeTarget ≠ 0 ∧
        E.timeTarget ≤ ((E.ticks : ℚ) + 1) / (E.sampleRate : ℚ)) ∨
      |E.uncorrectedAmplitude + E.delta - E.amplitudeTarget| < |E.delta|) :
    E.tick1 = { E with
      ticks := E.ticks + 1,
      time := ((E.ticks : ℚ) + 1) / (E.sampleRate : ℚ),
      state := .sustain,
      uncorrectedAmplitude := E.amplitudeTarget,
      amplitudeTarget := E.sustain,
      timeTarget := 0,
      timeTargetInfinite := true,
      delta := 0,
      correctedAmplitude := E.amplitudeTarget } := by
  simp [Envelope.tick1, Envelope.handleState, Envelope.hasReachedTarget,
    Envelope.hitTarget, Envelope.updateAmplitude, Envelope.setState,
    Envelope.setStateSustain, Envelope.setTarget, hhand, hset, hst, hhit]

/-- The final tick of a Release segment: when the reach test fires, the
amplitude snaps to the target and the state auto-advances to Idle, which
resets the amplitude to 0 and the delta to 0. -/
theorem tick1_finish_release (E : Envelope)
    (hst : E.state = .release)
    (hhand : E.handledFirstTick = true)
    (hset : E.amplitudeWasSet = false)
    (hhit : E.delta = 0 ∨
      (E.timeTargetInfinite = false ∧ E.timeTarget ≠ 0 ∧
        E.timeTarget ≤ ((E.ticks : ℚ) + 1) / (E.sampleRate : ℚ)) ∨
      |E.uncorrectedAmplitude + E.delta - E.amplitudeTarget| < |E.delta|) :
    E.tick1 = { E with
      ticks := E.ticks + 1,
      time := ((E.ticks : ℚ) + 1) / (E.sampleRate : ℚ),
      state := .idle,
      uncorrectedAmplitude := 0,
      delta := 0,
      correctedAmplitude := 0 } := by
  simp [Envelope.tick1, Envelope.handleState, Envelope.hasReachedTarget,
    Envelope.hitTarget, Envelope.updateAmplitude, Envelope.setState,
    Envelope.setStateIdle, hhand, hset, hst, hhit]

/-- Invariant of a running Decay/Release segment whose amplitude starts
`N` delta-steps away from the target and whose time target lies beyond the
`N`-th tick: for every `j < N` the segment is still running, with the
amplitude `N - j` steps away and the bookkeeping fields unchanged. -/
theorem seg_amp_run_inv (e : Envelope) (N : ℕ)
    (hst : e.state = .decay ∨ e.state = .release)
    (hhand : e.handledFirstTick = true)
    (hset : e.amplitudeWasSet = false)
    (hinf : e.timeTargetInfinite = false)
    (hd : e.delta ≠ 0)
    (hSR : 0 < e.sampleRate)
    (hamp : e.uncorrectedAmplitude = e.amplitudeTarget - (N : ℚ) * e.delta)
    (htime : ((e.ticks : ℚ) + (N : ℚ)) / (e.sampleRate : ℚ) < e.timeTarget) :
    ∀ j, j < N →
      (e.tickN j).state = e.state ∧
      (e.tickN j).uncorrectedAmplitude =
        e.amplitudeTarget - ((N : ℚ) - (j : ℚ)) * e.delta ∧
      (e.tickN j).delta = e.delta ∧
      (e.tickN j).amplitudeTarget = e.amplitudeTarget ∧
      (e.tickN j).timeTarget = e.timeTarget ∧
      (e.tickN j).timeTargetInfinite = false ∧
      (e.tickN j).handledFirstTick = true ∧
      (e.tickN j).amplitudeWasSet = false ∧
      (e.tickN j).ticks = e.ticks + j ∧
      (e.tickN j).sampleRate = e.sampleRate ∧
      (e.tickN j).sustain = e.sustain := by
  intro j
  induction j with
  | zero =>
    intro _
    refine ⟨rfl, ?_, rfl, rfl, rfl, hinf, hhand, hset, rfl, rfl, rfl⟩
    simpa using hamp
  | succ j ih =>
    intro hjN
    have hj : j < N := Nat.lt_of_succ_lt hjN
    obtain ⟨h1, h2, h3, h4, h5, h6, h7, h8, h9, h10, h11⟩ := ih hj
    have hSRq : (0 : ℚ) < (e.sampleRate : ℚ) := by exact_mod_cast hSR
    have hstE : (e.tickN j).state = .decay ∨ (e.tickN j).state = .release := by
      rcases hst with h | h
      · exact Or.inl (by rw [h1, h])
      · exact Or.inr (by rw [h1, h])
    have hdE : (e.tickN j).delta ≠ 0 := by rw [h3]; exact hd
    have htimeE : ¬ (e.tickN j).timeTarget ≤
        (((e.tickN j).ticks : ℚ) + 1) / ((e.tickN j).sampleRate : ℚ) := by
      rw [h5, h9, h10, not_le]
      push_cast
      rw [div_lt_iff₀ hSRq]
      rw [div_lt_iff₀ hSRq] at htime
      have hcast : (j : ℚ) + 1 ≤ (N : ℚ) := by exact_mod_cast Nat.le_of_lt hjN
      linarith
    have hampE : ¬ |(e.tickN j).uncorrectedAmplitude + (e.tickN j).delta -
        (e.tickN j).amplitudeTarget| < |(e.tickN j).delta| := by
      rw [h2, h3, h4, not_lt]
      have hrw : e.amplitudeTarget - ((N : ℚ) - (j : ℚ)) * e.delta + e.delta -
          e.amplitudeTarget = -(((N : ℚ) - (j : ℚ) - 1) * e.delta) := by ring
      rw [hrw, abs_neg, abs_mul]
      have hge : (1 : ℚ) ≤ |(N : ℚ) - (j : ℚ) - 1| := by
        have h2le : (j : ℚ) + 2 ≤ (N : ℚ) := by exact_mod_cast hjN
        rw [abs_of_nonneg (by linarith)]
        linarith
      calc |e.delta| = 1 * |e.delta| := (one_mul _).symm
        _ ≤ |(N : ℚ) - (j : ℚ) - 1| * |e.delta| :=
            mul_le_mul_of_nonneg_right hge (abs_nonneg _)
    have hstep := Envelope.tick1_continue_concave (e.tickN j) hstE h7 h8 hdE htimeE hampE
    have htickN : e.tickN (j + 1) = (e.tickN j).tick1 := rfl
    rw [htickN, hstep]
    refine ⟨h1, ?_, h3, h4, h5, h6, h7, h8, ?_, h10, h11⟩
    · show (e.tickN j).uncorrectedAmplitude + (e.tickN j).delta =
        e.amplitudeTarget - ((N : ℚ) - ((j + 1 : ℕ) : ℚ)) * e.delta
      rw [h2, h3]
      push_cast
      ring
    · show (e.tickN j).ticks + 1 = e.ticks + (j + 1)
      rw [h9]
      omega

/-- Full run of a Decay segment whose amplitude starts `N` delta-steps away
from the target (time target beyond the `N`-th tick): after exactly `N`
ticks the segment reaches its target, snaps the amplitude to it, and
auto-advances to Sustain. -/
theorem seg_amp_run_decay (e : Envelope) (N : ℕ)
    (hst : e.state = .decay)
    (hhand : e.handledFirstTick = true)
    (hset : e.amplitudeWasSet = false)
    (hinf : e.timeTargetInfinite = false)
    (hd : e.delta ≠ 0)
    (hSR : 0 < e.sampleRate)
    (hamp : e.uncorrectedAmplitude = e.amplitudeTarget - (N : ℚ) * e.delta)
    (htime : ((e.ticks : ℚ) + (N : ℚ)) / (e.sampleRate : ℚ) < e.timeTarget)
    (hN : 1 ≤ N) :
    (e.tickN N).state = .sustain ∧
    (e.tickN N).uncorrectedAmplitude = e.amplitudeTarget ∧
    (e.tickN N).correctedAmplitude = e.amplitudeTarget ∧
    (e.tickN N).ticks = e.ticks + N := by
  obtain ⟨h1, h2, h3, h4, h5, h6, h7, h8, h9, h10, h11⟩ :=
    seg_amp_run_inv e N (Or.inl hst) hhand hset hinf hd hSR hamp htime (N - 1)
      (by omega)
  have hc : ((N - 1 : ℕ) : ℚ) = (N : ℚ) - 1 := by
    push_cast [Nat.cast_sub hN]
    ring
  have hstE : (e.tickN (N - 1)).state = .decay := by rw [h1, hst]
  have hhit : (e.tickN (N - 1)).delta = 0 ∨
      ((e.tickN (N - 1)).timeTargetInfinite = false ∧
        (e.tickN (N - 1)).timeTarget ≠ 0 ∧
        (e.tickN (N - 1)).timeTarget ≤
          (((e.tickN (N - 1)).ticks : ℚ) + 1) / (((e.tickN (N - 1)).sampleRate : ℚ))) ∨
      |(e.tickN (N - 1)).uncorrectedAmplitude + (e.tickN (N - 1)).delta -
        (e.tickN (N - 1)).amplitudeTarget| < |(e.tickN (N - 1)).delta| := by
    right; right
    rw [h2, h3, h4, hc]
    have hz : e.amplitudeTarget - ((N : ℚ) - ((N : ℚ) - 1)) * e.delta + e.delta -
        e.amplitudeTarget = 0 := by ring
    rw [hz, abs_zero]
    exact abs_pos.mpr hd
  have hstep := tick1_finish_decay (e.tickN (N - 1)) hstE h7 h8 hhit
  have ht : e.tickN N = (e.tickN (N - 1)).tick1 := by
    obtain ⟨m, rfl⟩ : ∃ m, N = m + 1 := ⟨N - 1, by omega⟩
    simp [Envelope.tickN]
  rw [ht, hstep]
  refine ⟨rfl, h4, h4, ?_⟩
  show (e.tickN (N - 1)).ticks + 1 = e.ticks + N
  rw [h9]
  omega

/-- Full run of a Release segment whose amplitude starts `N` delta-steps
away from the target: after exactly `N` ticks the segment reaches its
target and auto-advances to Idle, which zeroes the amplitude. -/
theorem seg_amp_run_release (e : Envelope) (N : ℕ)
    (hst : e.state = .release)
    (hhand : e.handledFirstTick = true)
    (hset : e.amplitudeWasSet = false)
    (hinf : e.timeTargetInfinite = false)
    (hd : e.delta ≠ 0)
    (hSR : 0 < e.sampleRate)
    (hamp : e.uncorrectedAmplitude = e.amplitudeTarget - (N : ℚ) * e.delta)
    (htime : ((e.ticks : ℚ) + (N : ℚ)) / (e.sampleRate : ℚ) < e.timeTarget)
    (hN : 1 ≤ N) :
    (e.tickN N).state = .idle ∧
    (e.tickN N).uncorrectedAmplitude = 0 ∧
    (e.tickN N).correctedAmplitude = 0 ∧
    (e.tickN N).ticks = e.ticks + N := by
  obtain ⟨h1, h2, h3, h4, h5, h6, h7, h8, h9, h10, h11⟩ :=
    seg_amp_run_inv e N (Or.inr hst) hhand hset hinf hd hSR hamp htime (N - 1)
      (by omega)
  have hc : ((N - 1 : ℕ) : ℚ) = (N : ℚ) - 1 := by
    push_cast [Nat.cast_sub hN]
    ring
  have hstE : (e.tickN (N - 1)).state = .release := by rw [h1, hst]
  have hhit : (e.tickN (N - 1)).delta = 0 ∨
      ((e.tickN (N - 1)).timeTargetInfinite = false ∧
        (e.tickN (N - 1)).timeTarget ≠ 0 ∧
        (e.tickN (N - 1)).timeTarget ≤
          (((e.tickN (N - 1)).ticks : ℚ) + 1) / (((e.tickN (N - 1)).sampleRate : ℚ))) ∨
      |(e.tickN (N - 1)).uncorrectedAmplitude + (e.tickN (N - 1)).delta -
        (e.tickN (N - 1)).amplitudeTarget| < |(e.tickN (N - 1)).delta| := by
    right; right
    rw [h2, h3, h4, hc]
    have hz : e.amplitudeTarget - ((N : ℚ) - ((N : ℚ) - 1)) * e.delta + e.delta -
        e.amplitudeTarget = 0 := by ring
    rw [hz, abs_zero]
    exact abs_pos.mpr hd
  have hstep := tick1_finish_release (e.tickN (N - 1)) hstE h7 h8 hhit
  have ht : e.tickN N = (e.tickN (N - 1)).tick1 := by
    obtain ⟨m, rfl⟩ : ∃ m, N = m + 1 := ⟨N - 1, by omega⟩
    simp [Envelope.tickN]
  rw [ht, hstep]
  refine ⟨rfl, rfl, rfl, ?_⟩
  show (e.tickN (N - 1)).ticks + 1 = e.ticks + N
  rw [h9]
  omega

/-- Invariant of a Decay segment that starts exactly at its target (the
100%-sustain case): the amplitude test never fires, so until the time
target elapses the segment keeps running, drifting one delta-step per tick
away from the target. -/
theorem seg_time_run_inv (e : Envelope) (M : ℕ)
    (hst : e.state = .decay)
    (hhand : e.handledFirstTick = true)
    (hset : e.amplitudeWasSet = false)
    (hinf : e.timeTargetInfinite = false)
    (hd : e.delta ≠ 0)
    (hamp : e.uncorrectedAmplitude = e.amplitudeTarget)
    (hbefore : ∀ j : ℕ, j < M →
      ((e.ticks : ℚ) + (j : ℚ)) / (e.sampleRate : ℚ) < e.timeTarget) :
    ∀ j, j < M →
      (e.tickN j).state = .decay ∧
      (e.tickN j).uncorrectedAmplitude = e.amplitudeTarget + (j : ℚ) * e.delta ∧
      (e.tickN j).delta = e.delta ∧
      (e.tickN j).amplitudeTarget = e.amplitudeTarget ∧
      (e.tickN j).timeTarget = e.timeTarget ∧
      (e.tickN j).timeTargetInfinite = false ∧
      (e.tickN j).handledFirstTick = true ∧
      (e.tickN j).amplitudeWasSet = false ∧
      (e.tickN j).ticks = e.ticks + j ∧
      (e.tickN j).sampleRate = e.sampleRate ∧
      (e.tickN j).sustain = e.sustain := by
  intro j
  induction j with
  | zero =>
    intro _
    refine ⟨hst, ?_, rfl, rfl, rfl, hinf, hhand, hset, rfl, rfl, rfl⟩
    simpa using hamp
  | succ j ih =>
    intro hjM
    have hj : j < M := Nat.lt_of_succ_lt hjM
    obtain ⟨h1, h2, h3, h4, h5, h6, h7, h8, h9, h10, h11⟩ := ih hj
    have htimeE : ¬ (e.tickN j).timeTarget ≤
        (((e.tickN j).ticks : ℚ) + 1) / ((e.tickN j).sampleRate : ℚ) := by
      rw [h5, h9, h10, not_le]
      have h := hbefore (j + 1) hjM
      push_cast at h ⊢
      have hx : ((e.ticks : ℚ) + (j : ℚ) + 1) = (e.ticks : ℚ) + ((j : ℚ) + 1) := by ring
      rw [hx]
      exact h
    have hdE : (e.tickN j).delta ≠ 0 := by rw [h3]; exact hd
    have hampE : ¬ |(e.tickN j).uncorrectedAmplitude + (e.tickN j).delta -
        (e.tickN j).amplitudeTarget| < |(e.tickN j).delta| := by
      rw [h2, h3, h4, not_lt]
      have hrw : e.amplitudeTarget + (j : ℚ) * e.delta + e.delta - e.amplitudeTarget =
          ((j : ℚ) + 1) * e.delta := by ring
      rw [hrw, abs_mul]
      have hge : (1 : ℚ) ≤ |(j : ℚ) + 1| := by
        rw [abs_of_nonneg (by positivity)]
        have : (0 : ℚ) ≤ (j : ℚ) := Nat.cast_nonneg j
        linarith
      calc |e.delta| = 1 * |e.delta| := (one_mul _).symm
        _ ≤ |(j : ℚ) + 1| * |e.delta| :=
            mul_le_mul_of_nonneg_right hge (abs_nonneg _)
    have hstep := Envelope.tick1_continue_concave (e.tickN j) (Or.inl (by rw [h1]))
      h7 h8 hdE htimeE hampE
    have htickN : e.tickN (j + 1) = (e.tickN j).tick1 := rfl
    rw [htickN, hstep]
    refine ⟨h1, ?_, h3, h4, h5, h6, h7, h8, ?_, h10, h11⟩
    · show (e.tickN j).uncorrectedAmplitude + (e.tickN j).delta =
        e.amplitudeTarget + ((j + 1 : ℕ) : ℚ) * e.delta
      rw [h2, h3]
      push_cast
      ring
    · show (e.tickN j).ticks + 1 = e.ticks + (j + 1)
      rw [h9]
      omega

/-- Full run of a Decay segment that starts exactly at its target: the
amplitude test never fires, and when the time target elapses (at tick `M`)
the amplitude snaps back exactly to the target and the state advances to
Sustain — the envelope is never stuck below the target. -/
theorem seg_time_run_decay (e : Envelope) (M : ℕ)
    (hst : e.state = .decay)
    (hhand : e.handledFirstTick = true)
    (hset : e.amplitudeWasSet = false)
    (hinf : e.timeTargetInfinite = false)
    (hd : e.delta ≠ 0)
    (htt0 : e.timeTarget ≠ 0)
    (hamp : e.uncorrectedAmplitude = e.amplitudeTarget)
    (hbefore : ∀ j : ℕ, j < M →
      ((e.ticks : ℚ) + (j : ℚ)) / (e.sampleRate : ℚ) < e.timeTarget)
    (hreach : e.timeTarget ≤ ((e.ticks : ℚ) + (M : ℚ)) / (e.sampleRate : ℚ))
    (hM : 1 ≤ M) :
    (e.tickN M).state = .sustain ∧
    (e.tickN M).uncorrectedAmplitude = e.amplitudeTarget ∧
    (e.tickN M).correctedAmplitude = e.amplitudeTarget ∧
    (e.tickN M).ticks = e.ticks + M := by
  obtain ⟨h1, h2, h3, h4, h5, h6, h7, h8, h9, h10, h11⟩ :=
    seg_time_run_inv e M hst hhand hset hinf hd hamp hbefore (M - 1) (by omega)
  have hc : ((M - 1 : ℕ) : ℚ) = (M : ℚ) - 1 := by
    push_cast [Nat.cast_sub hM]
    ring
  have hhit : (e.tickN (M - 1)).delta = 0 ∨
      ((e.tickN (M - 1)).timeTargetInfinite = false ∧
        (e.tickN (M - 1)).timeTarget ≠ 0 ∧
        (e.tickN (M - 1)).timeTarget ≤
          (((e.tickN (M - 1)).ticks : ℚ) + 1) / (((e.tickN (M - 1)).sampleRate : ℚ))) ∨
      |(e.tickN (M - 1)).uncorrectedAmplitude + (e.tickN (M - 1)).delta -
        (e.tickN (M - 1)).amplitudeTarget| < |(e.tickN (M - 1)).delta| := by
    right; left
    refine ⟨h6, by rw [h5]; exact htt0, ?_⟩
    rw [h5, h9, h10]
    have hx : ((e.ticks + (M - 1) : ℕ) : ℚ) + 1 = (e.ticks : ℚ) + (M : ℚ) := by
      push_cast [Nat.cast_sub hM]
      ring
    rw [hx]
    exact hreach
  have hstep := tick1_finish_decay (e.tickN (M - 1)) (by rw [h1]) h7 h8 hhit
  have ht : e.tickN M = (e.tickN (M - 1)).tick1 := by
    obtain ⟨m, rfl⟩ : ∃ m, M = m + 1 := ⟨M - 1, by omega⟩
    simp [Envelope.tickN]
  rw [ht, hstep]
  refine ⟨rfl, h4, h4, ?_⟩
  show (e.tickN (M - 1)).ticks + 1 = e.ticks + M
  rw [h9]
  omega

/-- Field-level description of entering the Decay state with a nonzero,
non-maximal decay parameter: the delta is computed over the full 0→1 range
(range -1), independent of the current amplitude. -/
theorem setStateDecay_fields (e : Envelope) (h0 : e.decay ≠ 0) (h1 : e.decay ≠ 1) :
    e.setStateDecay.state = .decay ∧
    e.setStateDecay.delta = -1 / (e.decay * 30 * (e.sampleRate : ℚ)) ∧
    e.setStateDecay.amplitudeTarget = e.sustain ∧
    e.setStateDecay.timeTarget = e.time + e.decay * 30 ∧
    e.setStateDecay.timeTargetInfinite = false ∧
    e.setStateDecay.uncorrectedAmplitude = e.uncorrectedAmplitude ∧
    e.setStateDecay.handledFirstTick = e.handledFirstTick ∧
    e.setStateDecay.amplitudeWasSet = e.amplitudeWasSet ∧
    e.setStateDecay.ticks = e.ticks ∧
    e.setStateDecay.sampleRate = e.sampleRate ∧
    e.setStateDecay.sustain = e.sustain := by
  simp [setStateDecay, setTarget, fromNormalToSeconds, maxSeconds, h0, h1]

/-- Field-level description of entering the Release state with a nonzero,
non-maximal release parameter: the delta is again computed over the full
0→1 range and the target is 0. -/
theorem setStateRelease_fields (e : Envelope) (h0 : e.release ≠ 0) (h1 : e.release ≠ 1) :
    e.setStateRelease.state = .release ∧
    e.setStateRelease.delta = -1 / (e.release * 30 * (e.sampleRate : ℚ)) ∧
    e.setStateRelease.amplitudeTarget = 0 ∧
    e.setStateRelease.timeTarget = e.time + e.release * 30 ∧
    e.setStateRelease.timeTargetInfinite = false ∧
    e.setStateRelease.uncorrectedAmplitude = e.uncorrectedAmplitude ∧
    e.setStateRelease.handledFirstTick = e.handledFirstTick ∧
    e.setStateRelease.amplitudeWasSet = e.amplitudeWasSet ∧
    e.setStateRelease.ticks = e.ticks ∧
    e.setStateRelease.sampleRate = e.sampleRate ∧
    e.setStateRelease.sustain = e.sustain := by
  simp [setStateRelease, setTarget, fromNormalToSeconds, maxSeconds, h0, h1]

/-- The degenerate curve-fit fallback: when the three fitting points
coincide, the coefficient computation returns the identity transform. -/
theorem calculateCoefficients_point (x y : ℚ) :
    calculateCoefficients x y x y x y = (0, 1, 0) := by
  simp [calculateCoefficients]

/-- Entering Decay when the current amplitude already equals the sustain
level (e.g. 100% sustain after a completed attack): the three fitting
points coincide, so the concave coefficients are the identity transform. -/
theorem setStateDecay_concave_identity (e : Envelope)
    (h0 : e.decay ≠ 0) (h1 : e.decay ≠ 1)
    (hamp : e.uncorrectedAmplitude = e.sustain) :
    e.setStateDecay.concaveA = 0 ∧ e.setStateDecay.concaveB = 1 ∧
    e.setStateDecay.concaveC = 0 := by
  simp [setStateDecay, setTarget, h0, h1, hamp, calculateCoefficients]

end Envelope

/-! ## Oscillator tick lemmas -/

namespace Oscillator

/-- Source `update_delta` always leaves the cached delta equal to the effective
delta and marks it up to date. -/
theorem updateDelta_spec (o : Oscillator) :
    o.updateDelta.delta = o.effectiveDelta ∧ o.updateDelta.deltaUpdated = true ∧
    o.updateDelta.cyclePosition = o.cyclePosition ∧
    o.updateDelta.resetHandled = o.resetHandled ∧
    o.updateDelta.isSyncPending = o.isSyncPending := by
  by_cases hu : o.deltaUpdated <;>
    simp [Oscillator.updateDelta, Oscillator.effectiveDelta, hu]

/-- The first-tick-after-reset path: the recomputed cycle position is
`fract(delta * 0) = 0`, no delta is added, and `should_sync` is raised. -/
theorem tick1_reset (o : Oscillator) (hr : o.resetHandled = false) :
    o.tick1.cyclePosition = 0 ∧ o.tick1.resetHandled = true ∧
    o.tick1.deltaUpdated = true ∧ o.tick1.delta = o.effectiveDelta ∧
    o.tick1.shouldSync = true := by
  by_cases hu : o.deltaUpdated <;> by_cases hs : o.isSyncPending <;>
    simp [Oscillator.tick1, Oscillator.calculateCyclePosition, Oscillator.updateDelta,
      Oscillator.effectiveDelta, Oscillator.adjustedFrequency, hr, hu, hs]

/-- The steady-state path of `calculate_cycle_position`: a pending sync
first rezeroes the position, delta is added, and the position is wrapped by
subtracting 1.0 when it passes the near-1.0 threshold. -/
theorem calculateCyclePosition_steady (o : Oscillator) (hr : o.resetHandled = true) :
    o.calculateCyclePosition.2.cyclePosition =
      (if (if o.isSyncPending then 0 else o.cyclePosition) + o.effectiveDelta >
          wrapThreshold
       then (if o.isSyncPending then 0 else o.cyclePosition) + o.effectiveDelta - 1
       else (if o.isSyncPending then 0 else o.cyclePosition) + o.effectiveDelta) ∧
    o.calculateCyclePosition.2.resetHandled = true ∧
    o.calculateCyclePosition.2.deltaUpdated = true ∧
    o.calculateCyclePosition.2.delta = o.effectiveDelta := by
  by_cases hu : o.deltaUpdated <;> by_cases hs : o.isSyncPending <;>
    simp only [Oscillator.calculateCyclePosition, Oscillator.updateDelta,
      Oscillator.effectiveDelta, hr, hu, hs, Bool.false_eq_true, if_false, if_true,
      Bool.true_eq_false] <;>
    split <;>
    simp_all

/-- One steady tick keeps the cycle position in the interval
`(-10^-12, wrapThreshold]` whenever the effective delta lies in [0, 1], and
leaves the delta cached. -/
theorem tick1_pos_bounds (o : Oscillator)
    (hd0 : 0 ≤ o.effectiveDelta) (hd1 : o.effectiveDelta ≤ 1)
    (hpos : o.resetHandled = true →
      -(1 / 10 ^ 12) < o.cyclePosition ∧ o.cyclePosition ≤ wrapThreshold) :
    (-(1 / 10 ^ 12) < o.tick1.cyclePosition ∧ o.tick1.cyclePosition ≤ wrapThreshold) ∧
    o.tick1.resetHandled = true ∧ o.tick1.deltaUpdated = true ∧
    o.tick1.delta = o.effectiveDelta := by
  have hT : wrapThreshold = 1 - 1 / 10 ^ 12 := by
    norm_num [Oscillator.wrapThreshold]
  by_cases hr : o.resetHandled
  · obtain ⟨hcp, hrh, hdu, hdl⟩ := Oscillator.calculateCyclePosition_steady
      { o with ticks := o.ticks + 1 } hr
    have heff : ({ o with ticks := o.ticks + 1 } : Oscillator).effectiveDelta =
        o.effectiveDelta := by
      simp [Oscillator.effectiveDelta, Oscillator.adjustedFrequency]
    rw [heff] at hcp
    dsimp only at hcp
    have hproj : o.tick1.cyclePosition =
        ({ o with ticks := o.ticks + 1 } : Oscillator).calculateCyclePosition.2.cyclePosition ∧
        o.tick1.resetHandled = true ∧
        o.tick1.deltaUpdated =
          ({ o with ticks := o.ticks + 1 } : Oscillator).calculateCyclePosition.2.deltaUpdated ∧
        o.tick1.delta =
          ({ o with ticks := o.ticks + 1 } : Oscillator).calculateCyclePosition.2.delta := by
      simp [Oscillator.tick1, hr]
    obtain ⟨hp1, hp2, hp3, hp4⟩ := hproj
    refine ⟨?_, hp2, by rw [hp3, hdu], by rw [hp4, hdl, heff]⟩
    rw [hp1, hcp]
    have key : ∀ q : ℝ, -(1 / 10 ^ 12) < q → q ≤ wrapThreshold →
        -(1 / 10 ^ 12) < (if q + o.effectiveDelta > wrapThreshold
            then q + o.effectiveDelta - 1 else q + o.effectiveDelta) ∧
          (if q + o.effectiveDelta > wrapThreshold
            then q + o.effectiveDelta - 1 else q + o.effectiveDelta) ≤ wrapThreshold := by
      intro q hq1 hq2
      split
      · rename_i hw
        rw [hT] at hw hq2 ⊢
        exact ⟨by linarith, by linarith⟩
      · rename_i hw
        rw [not_lt] at hw
        exact ⟨by linarith, hw⟩
    by_cases hsy : o.isSyncPending = true
    · simp only [hsy, if_true]
      exact key 0 (by norm_num) (by rw [hT]; norm_num)
    · simp only [hsy, if_false]
      exact key o.cyclePosition (hpos hr).1 (hpos hr).2
  · have hr' : o.resetHandled = false := by
      rw [Bool.not_eq_true] at hr
      exact hr
    obtain ⟨h1, h2, h3, h4, _⟩ := Oscillator.tick1_reset o hr'
    refine ⟨?_, h2, h3, h4⟩
    rw [h1, hT]
    norm_num

/-- Iterated steady ticks keep the cycle position in
`(-10^-12, wrapThreshold]` for every tick count of at least 1, for any
starting state satisfying the invariant. -/
theorem tickN_pos_bounds (o : Oscillator)
    (hd0 : 0 ≤ o.effectiveDelta) (hd1 : o.effectiveDelta ≤ 1)
    (hpos : o.resetHandled = true →
      -(1 / 10 ^ 12) < o.cyclePosition ∧ o.cyclePosition ≤ wrapThreshold) :
    ∀ n, 1 ≤ n →
      (-(1 / 10 ^ 12) < (o.tickN n).cyclePosition ∧
        (o.tickN n).cyclePosition ≤ wrapThreshold) ∧
      (o.tickN n).resetHandled = true ∧
      (o.tickN n).effectiveDelta = o.effectiveDelta := by
  intro n
  induction n with
  | zero => omega
  | succ n ih =>
    intro _
    by_cases hn : 1 ≤ n
    · obtain ⟨hb, hrh, heff⟩ := ih hn
      obtain ⟨hb', hrh', hdu', hdl'⟩ := tick1_pos_bounds (o.tickN n)
        (by rw [heff]; exact hd0) (by rw [heff]; exact hd1) (fun _ => hb)
      refine ⟨hb', hrh', ?_⟩
      show (o.tickN n).tick1.effectiveDelta = o.effectiveDelta
      rw [Oscillator.effectiveDelta, if_pos hdu', hdl', heff]
    · have hn0 : n = 0 := by omega
      subst hn0
      obtain ⟨hb', hrh', hdu', hdl'⟩ := tick1_pos_bounds o hd0 hd1 hpos
      refine ⟨hb', hrh', ?_⟩
      show o.tick1.effectiveDelta = o.effectiveDelta
      rw [Oscillator.effectiveDelta, if_pos hdu', hdl']

end Oscillator

/-! ## Claim theorems -/

set_option maxHeartbeats 2000000 in
/-- C3: for an envelope entering Decay at amplitude 1 (resp. Release at the
sustain level) with sustain strictly between 0 and 1 and a nonzero duration
parameter, the per-tick delta is computed against the full 0→1 range
(delta = −1/(d·SR) for duration d seconds), and the segment reaches its
target after exactly N ticks where N/SR = d·(1−sustain) for decay
(resp. d·sustain for release) — the elapsed time is the duration parameter
scaled by the amplitude change, not the raw parameter. -/
theorem C3_full_range_segment_timing
    (e e2 : Envelope) (N M : ℕ)
    (hSR : 0 < e.sampleRate)
    (hd0 : 0 < e.decay) (hd1 : e.decay < 1)
    (hs0 : 0 < e.sustain) (hs1 : e.sustain < 1)
    (hhand : e.handledFirstTick = true)
    (hset : e.amplitudeWasSet = false)
    (hamp : e.uncorrectedAmplitude = 1)
    (htm : e.time = (e.ticks : ℚ) / (e.sampleRate : ℚ))
    (hN : (N : ℚ) = (1 - e.sustain) * (e.decay * 30) * (e.sampleRate : ℚ))
    (hSR2 : 0 < e2.sampleRate)
    (hr0 : 0 < e2.release) (hr1 : e2.release < 1)
    (hs20 : 0 < e2.sustain) (hs21 : e2.sustain < 1)
    (hhand2 : e2.handledFirstTick = true)
    (hset2 : e2.amplitudeWasSet = false)
    (hamp2 : e2.uncorrectedAmplitude = e2.sustain)
    (htm2 : e2.time = (e2.ticks : ℚ) / (e2.sampleRate : ℚ))
    (hM : (M : ℚ) = e2.sustain * (e2.release * 30) * (e2.sampleRate : ℚ)) :
    (e.setStateDecay.delta = -1 / (e.decay * 30 * (e.sampleRate : ℚ)) ∧
      (∀ j, j < N → (e.setStateDecay.tickN j).state = .decay) ∧
      (e.setStateDecay.tickN N).state = .sustain ∧
      (e.setStateDecay.tickN N).uncorrectedAmplitude = e.sustain ∧
      (e.setStateDecay.tickN N).ticks = e.ticks + N ∧
      (N : ℚ) / (e.sampleRate : ℚ) = (e.decay * 30) * (1 - e.sustain)) ∧
    (e2.setStateRelease.delta = -1 / (e2.release * 30 * (e2.sampleRate : ℚ)) ∧
      (∀ j, j < M → (e2.setStateRelease.tickN j).state = .release) ∧
      (e2.setStateRelease.tickN M).state = .idle ∧
      (e2.setStateRelease.tickN M).uncorrectedAmplitude = 0 ∧
      (e2.setStateRelease.tickN M).ticks = e2.ticks + M ∧
      (M : ℚ) / (e2.sampleRate : ℚ) = (e2.release * 30) * e2.sustain) := by
  have hq : (0 : ℚ) < (e.sampleRate : ℚ) := by exact_mod_cast hSR
  have hq2 : (0 : ℚ) < (e2.sampleRate : ℚ) := by exact_mod_cast hSR2
  obtain ⟨f1, f2, f3, f4, f5, f6, f7, f8, f9, f10, f11⟩ :=
    Envelope.setStateDecay_fields e (ne_of_gt hd0) (ne_of_lt hd1)
  obtain ⟨g1, g2, g3, g4, g5, g6, g7, g8, g9, g10, g11⟩ :=
    Envelope.setStateRelease_fields e2 (ne_of_gt hr0) (ne_of_lt hr1)
  have hden : (0 : ℚ) < e.decay * 30 * (e.sampleRate : ℚ) :=
    mul_pos (mul_pos hd0 (by norm_num)) hq
  have hden2 : (0 : ℚ) < e2.release * 30 * (e2.sampleRate : ℚ) :=
    mul_pos (mul_pos hr0 (by norm_num)) hq2
  have hdne : e.setStateDecay.delta ≠ 0 := by
    rw [f2]
    exact div_ne_zero (by norm_num) (ne_of_gt hden)
  have hdne2 : e2.setStateRelease.delta ≠ 0 := by
    rw [g2]
    exact div_ne_zero (by norm_num) (ne_of_gt hden2)
  have hNq : (0 : ℚ) < (N : ℚ) := by
    rw [hN]
    have := mul_pos (mul_pos (by linarith : (0 : ℚ) < 1 - e.sustain)
      (mul_pos hd0 (by norm_num : (0 : ℚ) < 30))) hq
    linarith
  have hN1 : 1 ≤ N := by
    by_contra h
    interval_cases N
    · simp at hNq
  have hMq : (0 : ℚ) < (M : ℚ) := by
    rw [hM]
    have := mul_pos (mul_pos hs20 (mul_pos hr0 (by norm_num : (0 : ℚ) < 30))) hq2
    linarith
  have hM1 : 1 ≤ M := by
    by_contra h
    interval_cases M
    · simp at hMq
  have hampD : e.setStateDecay.uncorrectedAmplitude =
      e.setStateDecay.amplitudeTarget - (N : ℚ) * e.setStateDecay.delta := by
    rw [f6, hamp, f3, f2, hN]
    field_simp
    ring
  have htimeD : ((e.setStateDecay.ticks : ℚ) + (N : ℚ)) /
      (e.setStateDecay.sampleRate : ℚ) < e.setStateDecay.timeTarget := by
    rw [f9, f10, f4, htm, add_div]
    refine add_lt_add_left ?_ _
    rw [div_lt_iff₀ hq, hN]
    nlinarith [mul_pos hs0 hden]
  have hampR : e2.setStateRelease.uncorrectedAmplitude =
      e2.setStateRelease.amplitudeTarget - (M : ℚ) * e2.setStateRelease.delta := by
    rw [g6, hamp2, g3, g2, hM]
    field_simp
    ring
  have htimeR : ((e2.setStateRelease.ticks : ℚ) + (M : ℚ)) /
      (e2.setStateRelease.sampleRate : ℚ) < e2.setStateRelease.timeTarget := by
    rw [g9, g10, g4, htm2, add_div]
    refine add_lt_add_left ?_ _
    rw [div_lt_iff₀ hq2, hM]
    nlinarith [mul_pos (sub_pos.mpr hs21) hden2]
  have hSRD : 0 < e.setStateDecay.sampleRate := by rw [f10]; exact hSR
  have hSRR : 0 < e2.setStateRelease.sampleRate := by rw [g10]; exact hSR2
  obtain ⟨c1, c2, c3, c4⟩ := Envelope.seg_amp_run_decay e.setStateDecay N f1
    (f7.trans hhand) (f8.trans hset) f5 hdne hSRD hampD htimeD hN1
  obtain ⟨r1, r2, r3, r4⟩ := Envelope.seg_amp_run_release e2.setStateRelease M g1
    (g7.trans hhand2) (g8.trans hset2) g5 hdne2 hSRR hampR htimeR hM1
  refine ⟨⟨f2, ?_, c1, c2.trans f3, c4.trans (by rw [f9]), ?_⟩,
          ⟨g2, ?_, r1, r2, r4.trans (by rw [g9]), ?_⟩⟩
  · intro j hj
    have := (Envelope.seg_amp_run_inv e.setStateDecay N (Or.inl f1)
      (f7.trans hhand) (f8.trans hset) f5 hdne hSRD hampD htimeD j hj).1
    rw [this, f1]
  · rw [hN]
    field_simp
    ring
  · intro j hj
    have := (Envelope.seg_amp_run_inv e2.setStateRelease M (Or.inr g1)
      (g7.trans hhand2) (g8.trans hset2) g5 hdne2 hSRR hampR htimeR j hj).1
    rw [this, g1]
  · rw [hM]
    field_simp
    ring

/-- C3 witness: sample rate 10, decay = release = 1/30 (1 s), sustain 1/2,
entry amplitude 1 (decay) and 1/2 (release); N = M = 5 ticks, i.e. 0.5 s =
1 s × |amplitude change|. -/
theorem C3_full_range_segment_timing_witness :
    (let e : Envelope :=
      { attack := 0, decay := 1 / 30, sustain := 1 / 2, release := 1 / 30
        sampleRate := 10, state := .attack, handledFirstTick := true
        ticks := 0, time := 0, uncorrectedAmplitude := 1, correctedAmplitude := 1
        delta := 0, amplitudeTarget := 1, timeTarget := 0
        timeTargetInfinite := false, amplitudeWasSet := false
        convexA := 0, convexB := 0, convexC := 0
        concaveA := 0, concaveB := 0, concaveC := 0 }
    let e2 : Envelope :=
      { attack := 0, decay := 1 / 30, sustain := 1 / 2, release := 1 / 30
        sampleRate := 10, state := .sustain, handledFirstTick := true
        ticks := 0, time := 0, uncorrectedAmplitude := 1 / 2, correctedAmplitude := 1 / 2
        delta := 0, amplitudeTarget := 1 / 2, timeTarget := 0
        timeTargetInfinite := false, amplitudeWasSet := false
        convexA := 0, convexB := 0, convexC := 0
        concaveA := 0, concaveB := 0, concaveC := 0 }
    (e.setStateDecay.delta = -1 / (e.decay * 30 * (e.sampleRate : ℚ)) ∧
      (∀ j, j < 5 → (e.setStateDecay.tickN j).state = .decay) ∧
      (e.setStateDecay.tickN 5).state = .sustain ∧
      (e.setStateDecay.tickN 5).uncorrectedAmplitude = e.sustain ∧
      (e.setStateDecay.tickN 5).ticks = e.ticks + 5 ∧
      ((5 : ℕ) : ℚ) / (e.sampleRate : ℚ) = (e.decay * 30) * (1 - e.sustain)) ∧
    (e2.setStateRelease.delta = -1 / (e2.release * 30 * (e2.sampleRate : ℚ)) ∧
      (∀ j, j < 5 → (e2.setStateRelease.tickN j).state = .release) ∧
      (e2.setStateRelease.tickN 5).state = .idle ∧
      (e2.setStateRelease.tickN 5).uncorrectedAmplitude = 0 ∧
      (e2.setStateRelease.tickN 5).ticks = e2.ticks + 5 ∧
      ((5 : ℕ) : ℚ) / (e2.sampleRate : ℚ) = (e2.release * 30) * e2.sustain)) := by
  exact C3_full_range_segment_timing _ _ 5 5
    (by norm_num) (by norm_num) (by norm_num) (by norm_num) (by norm_num)
    rfl rfl rfl (by norm_num) (by norm_num)
    (by norm_num) (by norm_num) (by norm_num) (by norm_num) (by norm_num)
    rfl rfl rfl (by norm_num) (by norm_num)

/-- C4: the degenerate curve-fit request (all three fitting points equal)
returns the identity coefficients (a, b, c) = (0, 1, 0) without solving a
singular matrix; consequently, entering Decay with the amplitude already at
the sustain level (e.g. 100% sustain after a completed attack) installs the
identity transform, so the reported curved amplitude equals the raw linear
amplitude, and the envelope still reaches the sustain target exactly (via
its time target) rather than getting stuck or producing NaN. -/
theorem C4_degenerate_curve_identity (e : Envelope) (M : ℕ)
    (hSR : 0 < e.sampleRate)
    (hd0 : 0 < e.decay) (hd1 : e.decay < 1)
    (hsus : e.sustain = 1)
    (hamp : e.uncorrectedAmplitude = 1)
    (hhand : e.handledFirstTick = true)
    (hset : e.amplitudeWasSet = false)
    (htm : e.time = (e.ticks : ℚ) / (e.sampleRate : ℚ))
    (hMhi : e.decay * 30 * (e.sampleRate : ℚ) ≤ (M : ℚ))
    (hMlo : (M : ℚ) - 1 < e.decay * 30 * (e.sampleRate : ℚ)) :
    (∀ x y : ℚ, Envelope.calculateCoefficients x y x y x y = (0, 1, 0)) ∧
    (e.setStateDecay.concaveA = 0 ∧ e.setStateDecay.concaveB = 1 ∧
      e.setStateDecay.concaveC = 0) ∧
    (∀ v : ℚ, e.setStateDecay.transformLinearToConcave v = v) ∧
    ((e.setStateDecay.tickN M).state = .sustain ∧
      (e.setStateDecay.tickN M).uncorrectedAmplitude = 1 ∧
      (e.setStateDecay.tickN M).correctedAmplitude = 1) := by
  have hq : (0 : ℚ) < (e.sampleRate : ℚ) := by exact_mod_cast hSR
  obtain ⟨f1, f2, f3, f4, f5, f6, f7, f8, f9, f10, f11⟩ :=
    Envelope.setStateDecay_fields e (ne_of_gt hd0) (ne_of_lt hd1)
  obtain ⟨i1, i2, i3⟩ := Envelope.setStateDecay_concave_identity e
    (ne_of_gt hd0) (ne_of_lt hd1) (by rw [hamp, hsus])
  have hden : (0 : ℚ) < e.decay * 30 * (e.sampleRate : ℚ) :=
    mul_pos (mul_pos hd0 (by norm_num)) hq
  have hdne : e.setStateDecay.delta ≠ 0 := by
    rw [f2]
    exact div_ne_zero (by norm_num) (ne_of_gt hden)
  have hM1 : 1 ≤ M := by
    by_contra h
    interval_cases M
    · simp at hMhi
      linarith
  have htt0 : e.setStateDecay.timeTarget ≠ 0 := by
    rw [f4, htm]
    have h1 : (0 : ℚ) ≤ (e.ticks : ℚ) / (e.sampleRate : ℚ) :=
      div_nonneg (Nat.cast_nonneg _) (le_of_lt hq)
    have h2 : (0 : ℚ) < e.decay * 30 := mul_pos hd0 (by norm_num)
    positivity
  have hampD : e.setStateDecay.uncorrectedAmplitude =
      e.setStateDecay.amplitudeTarget := by
    rw [f6, f3, hamp, hsus]
  have hbefore : ∀ j : ℕ, j < M →
      ((e.setStateDecay.ticks : ℚ) + (j : ℚ)) /
        (e.setStateDecay.sampleRate : ℚ) < e.setStateDecay.timeTarget := by
    intro j hj
    rw [f9, f10, f4, htm, add_div]
    refine add_lt_add_left ?_ _
    rw [div_lt_iff₀ hq]
    have : (j : ℚ) + 1 ≤ (M : ℚ) := by exact_mod_cast hj
    linarith
  have hreach : e.setStateDecay.timeTarget ≤
      ((e.setStateDecay.ticks : ℚ) + (M : ℚ)) / (e.setStateDecay.sampleRate : ℚ) := by
    rw [f9, f10, f4, htm, add_div]
    refine add_le_add_left ?_ _
    rw [le_div_iff₀ hq]
    exact hMhi
  obtain ⟨c1, c2, c3, c4⟩ := Envelope.seg_time_run_decay e.setStateDecay M f1
    (f7.trans hhand) (f8.trans hset) f5 hdne htt0 hampD hbefore hreach hM1
  refine ⟨Envelope.calculateCoefficients_point, ⟨i1, i2, i3⟩, ?_, c1,
    c2.trans (f3.trans hsus), c3.trans (f3.trans hsus)⟩
  intro v
  unfold Envelope.transformLinearToConcave
  rw [i1, i2, i3]
  ring

/-- C4 witness: the theorem applied to a concrete envelope at sample rate 2
with decay 1/30 (1 s) and 100% sustain, reaching Sustain after M = 2
ticks. -/
theorem C4_degenerate_curve_identity_witness :
    (let e : Envelope :=
      { attack := 0, decay := 1 / 30, sustain := 1, release := 0
        sampleRate := 2, state := .attack, handledFirstTick := true
        ticks := 0, time := 0, uncorrectedAmplitude := 1, correctedAmplitude := 1
        delta := 0, amplitudeTarget := 1, timeTarget := 0
        timeTargetInfinite := false, amplitudeWasSet := false
        convexA := 0, convexB := 0, convexC := 0
        concaveA := 0, concaveB := 0, concaveC := 0 }
    (∀ x y : ℚ, Envelope.calculateCoefficients x y x y x y = (0, 1, 0)) ∧
    (e.setStateDecay.concaveA = 0 ∧ e.setStateDecay.concaveB = 1 ∧
      e.setStateDecay.concaveC = 0) ∧
    (∀ v : ℚ, e.setStateDecay.transformLinearToConcave v = v) ∧
    ((e.setStateDecay.tickN 2).state = .sustain ∧
      (e.setStateDecay.tickN 2).uncorrectedAmplitude = 1 ∧
      (e.setStateDecay.tickN 2).correctedAmplitude = 1)) := by
  exact C4_degenerate_curve_identity _ 2 (by norm_num) (by norm_num) (by norm_num)
    rfl rfl rfl rfl (by norm_num) (by norm_num) (by norm_num)

/-- A key absent from the `notes_playing` vector is not found. -/
theorem findKeyIdx_not_mem (notes : List ℕ) (key : ℕ) (h : key ∉ notes) :
    findKeyIdx notes key = none := by
  induction notes with
  | nil => rfl
  | cons k rest ih =>
    simp only [List.mem_cons, not_or] at h
    simp [findKeyIdx, h.1, ih h.2]

/-- A key present in the `notes_playing` vector is found at an index that
records it. -/
theorem findKeyIdx_mem (notes : List ℕ) (key : ℕ) (h : key ∈ notes) :
    ∃ i, findKeyIdx notes key = some i ∧ notes.get? i = some key := by
  induction notes with
  | nil => simp at h
  | cons k rest ih =>
    by_cases hk : key = k
    · exact ⟨0, by simp [findKeyIdx, hk], by simp [hk]⟩
    · have hm : key ∈ rest := by
        rcases List.mem_cons.mp h with h' | h'
        · exact absurd h' hk
        · exact h'
      obtain ⟨i, h1, h2⟩ := ih hm
      exact ⟨i + 1, by simp [findKeyIdx, hk, h1], by simpa using h2⟩

/-- When every voice is playing, the inactive-voice scan finds nothing. -/
theorem findInactiveIdx_none {V : Type} (ops : VoiceOps V) (voices : List V)
    (h : ∀ v ∈ voices, ops.isPlaying v = true) :
    findInactiveIdx ops voices = none := by
  induction voices with
  | nil => rfl
  | cons v rest ih =>
    have hv := h v (List.mem_cons_self v rest)
    simp [findInactiveIdx, hv, ih fun w hw => h w (List.mem_cons_of_mem v hw)]

/-- When some voice is not playing, the inactive-voice scan returns an
index holding a non-playing voice. -/
theorem findInactiveIdx_some {V : Type} (ops : VoiceOps V) (voices : List V)
    (h : ∃ v ∈ voices, ops.isPlaying v = false) :
    ∃ i, findInactiveIdx ops voices = some i ∧
      ∃ hi : i < voices.length, ops.isPlaying (voices.get ⟨i, hi⟩) = false := by
  induction voices with
  | nil => simp at h
  | cons v rest ih =>
    by_cases hv : ops.isPlaying v = true
    · have hrest : ∃ w ∈ rest, ops.isPlaying w = false := by
        obtain ⟨w, hw, hwp⟩ := h
        rcases List.mem_cons.mp hw with h' | h'
        · rw [h'] at hwp
          rw [hv] at hwp
          exact absurd hwp (by simp)
        · exact ⟨w, h', hwp⟩
      obtain ⟨i, h1, hi, h2⟩ := ih hrest
      exact ⟨i + 1, by simp [findInactiveIdx, hv, h1],
        by simpa using Nat.succ_lt_succ hi, by simpa using h2⟩
    · exact ⟨0, by simp [findInactiveIdx, hv], by simp,
        by simpa using Bool.not_eq_true _ ▸ hv⟩

/-- The per-slot key reset at the end of the stores' tick: every slot whose
voice is not playing records key 0 afterwards. -/
theorem resetFreeNotes_get? {V : Type} (ops : VoiceOps V) (voices : List V) :
    ∀ (notes : List ℕ) (i : ℕ) (hi : i < voices.length),
      notes.length = voices.length →
      ops.isPlaying (voices.get ⟨i, hi⟩) = false →
      (VoiceStore.resetFreeNotes ops voices notes).get? i = some 0 := by
  induction voices with
  | nil =>
    intro notes i hi
    simp at hi
  | cons v vs ih =>
    intro notes i hi hlen hp
    rcases notes with _ | ⟨k, ks⟩
    · simp at hlen
    · rcases i with _ | i
      · simp only [List.get] at hp
        simp [VoiceStore.resetFreeNotes, hp]
      · have := ih ks i (by simpa using hi) (by simpa using hlen) (by simpa using hp)
        simpa [VoiceStore.resetFreeNotes] using this

/-- Source `trigger_shutdown` always moves the envelope to the Shutdown state
(`set_target` never touches the state tag). -/
theorem Envelope.triggerShutdown_state (e : Envelope) :
    e.triggerShutdown.state = .shutdown := by
  simp only [Envelope.triggerShutdown, Envelope.setState, Envelope.setStateShutdown,
    Envelope.setTarget]
  split
  · split <;> rfl
  · rfl

/-- C5: while a voice is playing, `note_on` does not retrigger the attack:
it latches the requested key and velocity, marks the steal pending and
shuts the amplitude envelope down (leaving the filter envelope untouched);
and on a tick whose envelope advance leaves the amplitude envelope idle
with the steal pending, `tick_envelopes` replays `note_on` with exactly the
latched key and velocity on the flag-cleared voice. -/
theorem C5_voice_steal_deferred_retrigger
    (keyToFreq : ℕ → ℚ) (v : WelshVoice) (key velocity : ℕ)
    (hplay : v.isPlaying = true) :
    WelshVoice.noteOn keyToFreq v key velocity =
      { v with stealIsUnderway := true, noteOnKey := key, noteOnVelocity := velocity,
               ampEnvelope := v.ampEnvelope.triggerShutdown } ∧
    (∀ w1 : WelshVoice,
      w1 = { WelshVoice.noteOn keyToFreq v key velocity with
              ampEnvelope := (WelshVoice.noteOn keyToFreq v key velocity).ampEnvelope.tick1,
              filterEnvelope :=
                (WelshVoice.noteOn keyToFreq v key velocity).filterEnvelope.tick1 } →
      w1.isPlaying = false →
      WelshVoice.tickEnvelopes keyToFreq (WelshVoice.noteOn keyToFreq v key velocity) =
        (WelshVoice.noteOn keyToFreq { w1 with stealIsUnderway := false } key velocity,
          0, 0)) := by
  have ha : WelshVoice.noteOn keyToFreq v key velocity =
      { v with stealIsUnderway := true, noteOnKey := key, noteOnVelocity := velocity,
               ampEnvelope := v.ampEnvelope.triggerShutdown } := by
    simp [WelshVoice.noteOn, hplay]
  refine ⟨ha, ?_⟩
  intro w1 hw1 hidle
  have hwplay : (WelshVoice.noteOn keyToFreq v key velocity).isPlaying = true := by
    rw [ha]
    simp [WelshVoice.isPlaying, Envelope.isIdle, Envelope.triggerShutdown_state]
  have hsteal : w1.stealIsUnderway = true := by rw [hw1, ha]
  have hkey : w1.noteOnKey = key := by rw [hw1, ha]
  have hvel : w1.noteOnVelocity = velocity := by rw [hw1, ha]
  rw [WelshVoice.tickEnvelopes, if_pos hwplay, ← hw1, if_neg (by rw [hidle]; simp),
    if_pos hsteal, hkey, hvel]

/-- C5 witness: the theorem applied to a concrete sounding voice at
key 72, velocity 99; the extra conjunct checks that one envelope tick after
the shutdown indeed reaches Idle, so the deferred-replay branch is
reachable at this input. -/
theorem C5_voice_steal_deferred_retrigger_witness :
    welshVoiceC5.isPlaying = true ∧
    (WelshVoice.noteOn (fun _ => 440) welshVoiceC5 72 99 =
      { welshVoiceC5 with
          stealIsUnderway := true
          noteOnKey := 72
          noteOnVelocity := 99
          ampEnvelope := welshVoiceC5.ampEnvelope.triggerShutdown }) ∧
    (WelshVoice.noteOn (fun _ => 440) welshVoiceC5 72 99).ampEnvelope.tick1.state = .idle :=
  ⟨rfl, (C5_voice_steal_deferred_retrigger (fun _ => 440) welshVoiceC5 72 99 rfl).1, by
    have h := (C5_voice_steal_deferred_retrigger (fun _ => 440) welshVoiceC5 72 99 rfl).1
    rw [h]
    norm_num [welshVoiceC5, welshEnvC5, Envelope.triggerShutdown, Envelope.setState,
      Envelope.setStateShutdown, Envelope.setStateIdle, Envelope.setTarget,
      Envelope.fromSecondsToNormal, Envelope.fromNormalToSeconds, Envelope.maxSeconds,
      Envelope.tick1, Envelope.handleState, Envelope.hasReachedTarget, Envelope.hitTarget,
      Envelope.updateAmplitude]⟩

/-- C9: For every gain g, pan p and mono input sample s, the DCA's stereo
transform returns left = (1 − 0.25·(p+1)²)·g·s and
right = (1 − 0.25·(p−1)²)·g·s.  (The code's right-channel expression
`1 − (0.5·p − 0.5)²` equals `1 − 0.25·(p−1)²`.) -/
theorem C9_dca_pan_law (g p s : ℚ) :
    Dca.transformAudioToStereo ⟨g, p⟩ s =
      ((1 - 1 / 4 * (p + 1) ^ 2) * g * s, (1 - 1 / 4 * (p - 1) ^ 2) * g * s) := by
  refine Prod.ext ?_ ?_ <;> · simp only [Dca.transformAudioToStereo]; ring

/-- C2 counterexample: with the per-sample phase increment 0.9999999999995
(below 1.0) and the cycle position at 0, the next tick computes the
unwrapped position 0.9999999999995, which exceeds the near-1.0 tolerance
0.999999999999, so the wrap fires and leaves the position at
-0.0000000000005 — outside the claimed [0, 1). -/
theorem C2_counterexample : oscillatorC2.tick1.cyclePosition < 0 := by
  obtain ⟨hcp, _, _, _⟩ := Oscillator.calculateCyclePosition_steady
    { oscillatorC2 with ticks := oscillatorC2.ticks + 1 } rfl
  have hproj : oscillatorC2.tick1.cyclePosition =
      ({ oscillatorC2 with ticks := oscillatorC2.ticks + 1 } :
        Oscillator).calculateCyclePosition.2.cyclePosition := by
    simp [Oscillator.tick1, oscillatorC2]
  have heff : ({ oscillatorC2 with ticks := oscillatorC2.ticks + 1 } :
      Oscillator).effectiveDelta = 9999999999995 / 10 ^ 13 := by
    simp [Oscillator.effectiveDelta, oscillatorC2]
  rw [heff] at hcp
  dsimp only at hcp
  rw [hproj, hcp]
  have hsy : oscillatorC2.isSyncPending = false := rfl
  rw [hsy]
  have hcy : oscillatorC2.cyclePosition = 0 := rfl
  rw [hcy]
  rw [if_pos (by norm_num [Oscillator.wrapThreshold])]
  norm_num

/-- C2 amended: provided the effective per-sample phase increment lies in
[0, 1] and the position satisfies the invariant (which a fresh or
just-reset oscillator does vacuously), the cycle position after every
completed tick lies in (-10^-12, 1): the claimed [0, 1) must be widened
below 0 by the near-1.0 wrap tolerance, and requires the increment not to
exceed one cycle per sample. -/
theorem C2_amended_cycle_position_invariant (o : Oscillator) (n : ℕ)
    (hd0 : 0 ≤ o.effectiveDelta) (hd1 : o.effectiveDelta ≤ 1)
    (hpos : o.resetHandled = true →
      -(1 / 10 ^ 12) < o.cyclePosition ∧ o.cyclePosition ≤ Oscillator.wrapThreshold)
    (hn : 1 ≤ n) :
    -(1 / 10 ^ 12) < (o.tickN n).cyclePosition ∧ (o.tickN n).cyclePosition < 1 := by
  obtain ⟨⟨h1, h2⟩, _, _⟩ := Oscillator.tickN_pos_bounds o hd0 hd1 hpos n hn
  refine ⟨h1, lt_of_le_of_lt h2 ?_⟩
  norm_num [Oscillator.wrapThreshold]

/-- C2 amended witness: the invariant applied to a concrete mid-run
oscillator with phase increment 1/2, position 0, for three ticks. -/
theorem C2_amended_cycle_position_invariant_witness :
    -(1 / 10 ^ 12) < (oscillatorC2Steady.tickN 3).cyclePosition ∧
      (oscillatorC2Steady.tickN 3).cyclePosition < 1 :=
  C2_amended_cycle_position_invariant oscillatorC2Steady 3
    (by norm_num [Oscillator.effectiveDelta, oscillatorC2Steady])
    (by norm_num [Oscillator.effectiveDelta, oscillatorC2Steady])
    (fun _ => by
      constructor
      · show -(1 / 10 ^ 12 : ℝ) < 0
        norm_num
      · show (0 : ℝ) ≤ Oscillator.wrapThreshold
        norm_num [Oscillator.wrapThreshold])
    (by norm_num)

/-- C1 counterexample: with bipolar FM = 1 and linear FM = 1, the code's
adjusted frequency is 1·(2¹ + 1) = 3, while the spec's formula
(base×tune)·2¹·(1 + 1) gives 4, so the claimed formula does not match the
code. -/
theorem C1_counterexample :
    Oscillator.adjustedFrequency oscillatorC1 ≠ specEffectiveFrequency oscillatorC1 := by
  simp only [Oscillator.adjustedFrequency, specEffectiveFrequency, oscillatorC1]
  rw [Real.rpow_one]
  norm_num

/-- C1 amended: for every oscillator, the effective frequency equals (the
fixed-frequency override if one is set, otherwise base frequency times
tuning ratio) multiplied by (2 raised to the bipolar-FM input *plus* the
linear-FM input). -/
theorem C1_amended_effective_frequency (o : Oscillator) :
    o.adjustedFrequency = specEffectiveFrequencyAmended o := rfl

/-- C6: for the capacity-limited-with-rejection store, `get_voice(key)`
returns the slot already recording `key` if one exists; otherwise, if some
voice is not playing, it records `key` in that slot and returns it;
otherwise it returns the error "out of voices" and leaves the store (every
voice and every recorded key) unchanged. -/
theorem C6_voice_store_get_voice {V : Type} (ops : VoiceOps V) (s : VoiceStore V)
    (key : ℕ) :
    (key ∈ s.notesPlaying →
      ∃ i, VoiceStore.getVoice ops s key = (Except.ok i, s) ∧
        s.notesPlaying.get? i = some key) ∧
    (key ∉ s.notesPlaying → (∃ v ∈ s.voices, ops.isPlaying v = false) →
      ∃ i, VoiceStore.getVoice ops s key =
          (Except.ok i, { s with notesPlaying := s.notesPlaying.set i key }) ∧
        ∃ hi : i < s.voices.length, ops.isPlaying (s.voices.get ⟨i, hi⟩) = false) ∧
    (key ∉ s.notesPlaying → (∀ v ∈ s.voices, ops.isPlaying v = true) →
      VoiceStore.getVoice ops s key = (Except.error "out of voices", s)) := by
  refine ⟨?_, ?_, ?_⟩
  · intro hmem
    obtain ⟨i, h1, h2⟩ := findKeyIdx_mem s.notesPlaying key hmem
    exact ⟨i, by simp [VoiceStore.getVoice, h1], h2⟩
  · intro hmem hex
    obtain ⟨i, h1, hi, h2⟩ := findInactiveIdx_some ops s.voices hex
    exact ⟨i, by simp [VoiceStore.getVoice, findKeyIdx_not_mem _ _ hmem, h1], hi, h2⟩
  · intro hmem hall
    simp [VoiceStore.getVoice, findKeyIdx_not_mem _ _ hmem,
      findInactiveIdx_none ops _ hall]

/-- C6 witness: a two-voice store with slot 0 playing key 60 and slot 1
free; key 60 is already mapped, key 61 takes the free slot, and on a fully
busy store key 62 is rejected with "out of voices". -/
theorem C6_voice_store_get_voice_witness :
    (∃ i, VoiceStore.getVoice voiceOpsBool ⟨(0, 0), [true, false], [60, 0]⟩ 60 =
        (Except.ok i, ⟨(0, 0), [true, false], [60, 0]⟩) ∧
      ([60, 0] : List ℕ).get? i = some 60) ∧
    (∃ i, VoiceStore.getVoice voiceOpsBool ⟨(0, 0), [true, false], [60, 0]⟩ 61 =
        (Except.ok i,
          { (⟨(0, 0), [true, false], [60, 0]⟩ : VoiceStore Bool) with
              notesPlaying := ([60, 0] : List ℕ).set i 61 }) ∧
      ∃ hi : i < ([true, false] : List Bool).length,
        voiceOpsBool.isPlaying (([true, false] : List Bool).get ⟨i, hi⟩) = false) ∧
    (VoiceStore.getVoice voiceOpsBool ⟨(0, 0), [true, true], [60, 61]⟩ 62 =
      (Except.error "out of voices", ⟨(0, 0), [true, true], [60, 61]⟩)) :=
  ⟨(C6_voice_store_get_voice voiceOpsBool ⟨(0, 0), [true, false], [60, 0]⟩ 60).1
      (by decide),
   (C6_voice_store_get_voice voiceOpsBool ⟨(0, 0), [true, false], [60, 0]⟩ 61).2.1
      (by decide) ⟨false, by decide, rfl⟩,
   (C6_voice_store_get_voice voiceOpsBool ⟨(0, 0), [true, true], [60, 61]⟩ 62).2.2
      (by decide) (by decide)⟩

/-- C7: for the capacity-limited-with-stealing store (with a nonempty voice
pool), `get_voice` never returns an error, and when the key is not recorded
and every voice is playing it unconditionally records the key in slot 0 and
returns slot 0. -/
theorem C7_stealing_store_steals_slot_zero {V : Type} (ops : VoiceOps V)
    (s : VoiceStore V) (key : ℕ) (_hne : s.voices ≠ []) :
    (∀ msg : String, (VoiceStore.stealingGetVoice ops s key).1 ≠ Except.error msg) ∧
    (key ∉ s.notesPlaying → (∀ v ∈ s.voices, ops.isPlaying v = true) →
      VoiceStore.stealingGetVoice ops s key =
        (Except.ok 0, { s with notesPlaying := s.notesPlaying.set 0 key })) := by
  constructor
  · intro msg
    unfold VoiceStore.stealingGetVoice
    rcases h1 : findKeyIdx s.notesPlaying key with _ | i
    · rcases h2 : findInactiveIdx ops s.voices with _ | i <;> simp [h1, h2]
    · simp [h1]
  · intro hmem hall
    simp [VoiceStore.stealingGetVoice, findKeyIdx_not_mem _ _ hmem,
      findInactiveIdx_none ops _ hall]

/-- C7 witness: a fully busy two-voice store; key 62 steals slot 0. -/
theorem C7_stealing_store_steals_slot_zero_witness :
    (∀ msg : String,
      (VoiceStore.stealingGetVoice voiceOpsBool ⟨(0, 0), [true, true], [60, 61]⟩ 62).1 ≠
        Except.error msg) ∧
    (VoiceStore.stealingGetVoice voiceOpsBool ⟨(0, 0), [true, true], [60, 61]⟩ 62 =
      (Except.ok 0,
        { (⟨(0, 0), [true, true], [60, 61]⟩ : VoiceStore Bool) with
            notesPlaying := ([60, 61] : List ℕ).set 0 62 })) :=
  ⟨(C7_stealing_store_steals_slot_zero voiceOpsBool ⟨(0, 0), [true, true], [60, 61]⟩ 62
      (by decide)).1,
   (C7_stealing_store_steals_slot_zero voiceOpsBool ⟨(0, 0), [true, true], [60, 61]⟩ 62
      (by decide)).2 (by decide) (by decide)⟩

/-- C10: the capacity-limited stores use MIDI key 0 as the free-slot
sentinel: after a tick, every slot whose voice is not playing records
key 0, and therefore `get_voice` on key 0 against a store with a
non-playing slot returns through the "voice already going for this note"
branch — the store is unchanged and no new mapping is recorded, making a
NoteOn for key 0 indistinguishable from a free-slot lookup. -/
theorem C10_key_zero_sentinel {V : Type} (ops : VoiceOps V) (s : VoiceStore V) (n : ℕ)
    (hlen : s.notesPlaying.length = s.voices.length) :
    (∀ i, ∀ hi : i < (VoiceStore.tick ops s n).voices.length,
      ops.isPlaying ((VoiceStore.tick ops s n).voices.get ⟨i, hi⟩) = false →
      (VoiceStore.tick ops s n).notesPlaying.get? i = some 0) ∧
    ((∃ i, ∃ hi : i < (VoiceStore.tick ops s n).voices.length,
        ops.isPlaying ((VoiceStore.tick ops s n).voices.get ⟨i, hi⟩) = false) →
      ∃ j, VoiceStore.getVoice ops (VoiceStore.tick ops s n) 0 =
          (Except.ok j, VoiceStore.tick ops s n) ∧
        (VoiceStore.tick ops s n).notesPlaying.get? j = some 0) := by
  have hv : (VoiceStore.tick ops s n).voices = s.voices.map (fun v => ops.tickN v n) := rfl
  have hnp : (VoiceStore.tick ops s n).notesPlaying =
      VoiceStore.resetFreeNotes ops (s.voices.map (fun v => ops.tickN v n))
        s.notesPlaying := rfl
  have hA : ∀ i, ∀ hi : i < (VoiceStore.tick ops s n).voices.length,
      ops.isPlaying ((VoiceStore.tick ops s n).voices.get ⟨i, hi⟩) = false →
      (VoiceStore.tick ops s n).notesPlaying.get? i = some 0 := by
    intro i hi hp
    rw [hnp]
    exact resetFreeNotes_get? ops _ s.notesPlaying i (by simpa [hv] using hi)
      (by simpa using hlen) hp
  refine ⟨hA, ?_⟩
  rintro ⟨i, hi, hp⟩
  have h0 := hA i hi hp
  have hmem : 0 ∈ (VoiceStore.tick ops s n).notesPlaying := List.get?_mem h0
  obtain ⟨j, h1, h2⟩ := findKeyIdx_mem _ 0 hmem
  exact ⟨j, by simp [VoiceStore.getVoice, h1], h2⟩

/-- C10 witness: a two-voice store whose slot 1 voice is idle after the
tick; its recorded key is reset to 0, and `get_voice` on key 0 returns
that slot with the store unchanged. -/
theorem C10_key_zero_sentinel_witness :
    (∀ i, ∀ hi : i < (VoiceStore.tick voiceOpsBool ⟨(0, 0), [true, false], [60, 61]⟩ 1).voices.length,
      voiceOpsBool.isPlaying
        ((VoiceStore.tick voiceOpsBool ⟨(0, 0), [true, false], [60, 61]⟩ 1).voices.get ⟨i, hi⟩) = false →
      (VoiceStore.tick voiceOpsBool ⟨(0, 0), [true, false], [60, 61]⟩ 1).notesPlaying.get? i = some 0) ∧
    (∃ j, VoiceStore.getVoice voiceOpsBool
        (VoiceStore.tick voiceOpsBool ⟨(0, 0), [true, false], [60, 61]⟩ 1) 0 =
        (Except.ok j, VoiceStore.tick voiceOpsBool ⟨(0, 0), [true, false], [60, 61]⟩ 1) ∧
      (VoiceStore.tick voiceOpsBool ⟨(0, 0), [true, false], [60, 61]⟩ 1).notesPlaying.get? j = some 0) :=
  ⟨(C10_key_zero_sentinel voiceOpsBool ⟨(0, 0), [true, false], [60, 61]⟩ 1 (by decide)).1,
   (C10_key_zero_sentinel voiceOpsBool ⟨(0, 0), [true, false], [60, 61]⟩ 1 (by decide)).2
      ⟨1, by decide, by decide⟩⟩

/-- C8: for an envelope with all-zero attack/decay/release and full
sustain, the first tick after `trigger_attack` reports amplitude 1 and the
first tick after `trigger_release` reports amplitude 0; moreover a zero
attack with nonzero decay jumps straight to Decay at amplitude 1 (no
divide-by-zero slope is computed). -/
theorem C8_zero_adsr_instant (sampleRate : ℕ) (dn sn rn : ℚ) (hdn : dn ≠ 0) :
    ((Envelope.newWith 0 0 1 0 sampleRate).triggerAttack.tick1.value = 1 ∧
      (Envelope.newWith 0 0 1 0 sampleRate).triggerAttack.tick1.triggerRelease.tick1.value = 0) ∧
    ((Envelope.newWith 0 dn sn rn sampleRate).triggerAttack.state = .decay ∧
      (Envelope.newWith 0 dn sn rn sampleRate).triggerAttack.uncorrectedAmplitude = 1) := by
  constructor
  · constructor
    · simp [Envelope.newWith, Envelope.triggerAttack, Envelope.setState,
        Envelope.setStateAttack, Envelope.setStateDecay, Envelope.setStateSustain,
        Envelope.setExplicitAmplitude, Envelope.setTarget, Envelope.tick1,
        Envelope.handleState, Envelope.updateAmplitude, Envelope.value, normalNew]
    · simp [Envelope.newWith, Envelope.triggerAttack, Envelope.triggerRelease,
        Envelope.setState, Envelope.setStateAttack, Envelope.setStateDecay,
        Envelope.setStateSustain, Envelope.setStateRelease, Envelope.setStateIdle,
        Envelope.setExplicitAmplitude, Envelope.setTarget, Envelope.tick1,
        Envelope.handleState, Envelope.updateAmplitude, Envelope.value, normalNew]
  · constructor
    · simp only [Envelope.newWith, Envelope.triggerAttack, Envelope.setState,
        Envelope.setStateAttack, Envelope.setStateDecay, Envelope.setStateSustain,
        Envelope.setExplicitAmplitude, Envelope.setTarget]
      simp [hdn]
      split <;> rfl
    · simp only [Envelope.newWith, Envelope.triggerAttack, Envelope.setState,
        Envelope.setStateAttack, Envelope.setStateDecay, Envelope.setStateSustain,
        Envelope.setExplicitAmplitude, Envelope.setTarget]
      simp [hdn]
      split <;> rfl

/-- C8 witness: the theorem applied at sample rate 44100 with decay 1/2,
sustain 1/3, release 1/4. -/
theorem C8_zero_adsr_instant_witness :
    ((1 : ℚ) / 2 ≠ 0) ∧
    (((Envelope.newWith 0 0 1 0 44100).triggerAttack.tick1.value = 1 ∧
      (Envelope.newWith 0 0 1 0 44100).triggerAttack.tick1.triggerRelease.tick1.value = 0) ∧
    ((Envelope.newWith 0 (1 / 2) (1 / 3) (1 / 4) 44100).triggerAttack.state = .decay ∧
      (Envelope.newWith 0 (1 / 2) (1 / 3) (1 / 4) 44100).triggerAttack.uncorrectedAmplitude = 1)) :=
  ⟨by norm_num, C8_zero_adsr_instant 44100 (1 / 2) (1 / 3) (1 / 4) (by norm_num)⟩

end Ensnare
